import Mathlib

/-!
Verification development for the grepros search core.

Shallow embedding of the repository's Python sources:
* `search.py`   — `Searcher.search` orchestration loop, context emission,
                  quota checks, Nth-match decimation, window pruning,
                  and `Searcher.get_match` pattern matching;
* `rosapi.py`   — `TypeMeta` registry (`make`/`discard`/`sweep`/`clear`) and
                  `calculate_definition_hash` / `parse_definition_subtypes`;
* `inputs.py`   — `ConditionMixin` condition-expression gating.

Python dictionaries are modelled as insertion-ordered association lists,
Python `None`/`True`/`False` status values as `Option Bool`, and message
identities (`id(msg)`) as natural-number tags carried by each message.
The `re` module and `hashlib.md5` are external to the repository; compiled
patterns are modelled by their match-span semantics, and the digest function
is passed as an explicit parameter.
-/

namespace Grepros

/-- Last `n` elements of a list, Python `l[-n:]` for `n ≥ 1`. -/
def lastN (n : Nat) (l : List α) : List α := l.drop (l.length - n)

/-- Ordered-dictionary lookup on an association list. -/
def alGet [DecidableEq κ] (d : List (κ × α)) (k : κ) : Option α :=
  match d with
  | [] => none
  | (k', v) :: rest => if k' = k then some v else alGet rest k

/-- Lookup with default. -/
def alGetD [DecidableEq κ] (d : List (κ × α)) (k : κ) (dflt : α) : α :=
  (alGet d k).getD dflt

/-- Ordered-dictionary store: update in place, append if the key is new
(Python dict insertion-order semantics). -/
def alSet [DecidableEq κ] (d : List (κ × α)) (k : κ) (v : α) : List (κ × α) :=
  match d with
  | [] => [(k, v)]
  | (k', v') :: rest => if k' = k then (k', v) :: rest else (k', v') :: alSet rest k v

/-- Update the value at a key through `f`, starting from `dflt` if the key is
absent (Python `defaultdict` access followed by mutation). -/
def alUpd [DecidableEq κ] (dflt : α) (f : α → α) (d : List (κ × α)) (k : κ) : List (κ × α) :=
  alSet d k (f (alGetD d k dflt))

/-- `(topic, typename, typehash)` triple keying all per-channel state. -/
abbrev TopicKey := String × String × String

/-- A ROS message as seen by the orchestration loop: an identity tag standing
for Python `id(msg)`, plus an opaque payload. -/
structure SMsg where
  mid : Nat
  val : Int
deriving DecidableEq, Repr

/-- One per-channel `collections.Counter` of `Searcher._counts`:
keys `None` (processed), `True` (matched), `False` (emitted as context). -/
structure Cnt where
  nones : Nat
  trues : Nat
  falses : Nat
deriving DecidableEq, Repr

/-- The zero counter. -/
def Cnt.zero : Cnt := ⟨0, 0, 0⟩

/-- Events observed by the bound sink (`SinkBase`), in call order. -/
inductive SinkEvent where
  | emitMeta : SinkEvent
  | emit (topic : String) (index : Int) (stamp : Int) (msg : SMsg)
      (matched : Option SMsg) : SinkEvent
  | flush : SinkEvent
deriving DecidableEq, Repr

/-- State of the `rosapi.TypeMeta` class-level registry: cached message ids
(`_CACHE` keys), `_CHILDREN` links, `_TIMINGS`, `_LASTSWEEP`. -/
structure MetaCache where
  cacheIds : List Nat
  children : List (Nat × List Nat)
  timings : List (Nat × Int)
  lastsweep : Int
deriving DecidableEq, Repr

/-- `TypeMeta.sweep`: drops stale entries (with their linked children) from the
cache, unless the lifetime is unset or the previous sweep is already outside
the lifetime window. -/
def tmSweep (lifetime : Int) (now : Int) (mc : MetaCache) : MetaCache :=
  if lifetime = 0 ∨ mc.lastsweep < now - lifetime then mc
  else
    let dropRoots := ((mc.timings.filter fun p => p.2 > now ∨ p.2 < now - lifetime).map Prod.fst)
    let dropAll := dropRoots ++ dropRoots.flatMap fun i => alGetD mc.children i []
    { cacheIds := mc.cacheIds.filter fun i => ¬ i ∈ dropAll
      children := mc.children.filter fun p => ¬ p.1 ∈ dropRoots
      timings := mc.timings.filter fun p => ¬ p.1 ∈ dropAll
      lastsweep := now }

/-- `TypeMeta.make` as invoked from the search loop (no root linkage):
registers the message id if unseen, then sweeps. -/
def tmMake (lifetime : Int) (now : Int) (mid : Nat) (mc : MetaCache) : MetaCache :=
  let mc1 :=
    if mid ∈ mc.cacheIds then mc
    else { mc with cacheIds := mc.cacheIds ++ [mid], timings := mc.timings ++ [(mid, now)] }
  tmSweep lifetime now mc1

/-- `TypeMeta.discard`: removes a message id and all its linked children from
the cache and timings, pops the children link, then sweeps. -/
def tmDiscard (lifetime : Int) (now : Int) (mid : Nat) (mc : MetaCache) : MetaCache :=
  let cs := alGetD mc.children mid []
  let mc1 : MetaCache :=
    { cacheIds := mc.cacheIds.filter fun i => ¬ (i = mid ∨ i ∈ cs)
      children := mc.children.filter fun p => ¬ p.1 = mid
      timings := mc.timings.filter fun p => ¬ (p.1 = mid ∨ p.1 ∈ cs)
      lastsweep := mc.lastsweep }
  tmSweep lifetime now mc1

/-- `TypeMeta.clear`: empties cache, children and timings. -/
def tmClear (mc : MetaCache) : MetaCache :=
  { cacheIds := [], children := [], timings := [], lastsweep := mc.lastsweep }

/-- The search arguments used by `Searcher` (`0` models an unset/falsy value). -/
structure SearchArgs where
  BEFORE : Nat
  AFTER : Nat
  MAX_MATCHES : Nat
  MAX_TOPIC_MATCHES : Nat
  MAX_TOPICS : Nat
  NTH_MATCH : Nat
deriving DecidableEq, Repr

/-- One record yielded by `source.read()`: batch id (`source.get_batch()`),
channel key, timestamp, message, and the wall-clock instant of processing
(feeding `TypeMeta` sweeps). -/
structure SRec where
  batch : Nat
  key : TopicKey
  stamp : Int
  msg : SMsg
  now : Int
deriving DecidableEq, Repr

/-- Full state of `Searcher.search` between records, including the sink-call
trace (`events`) and the message ids dropped by the latest prune
(`droppedIds`, observation of the current step's `_prune_data`). -/
structure SState where
  counter : Nat
  batch : Option Nat
  totalMatched : Nat
  counts : List (TopicKey × Cnt)
  messages : List (TopicKey × List (Nat × SMsg))
  stamps : List (TopicKey × List (Nat × Int))
  statuses : List (TopicKey × List (Nat × Option Bool))
  batchMatched : Bool
  skipBatch : Option Nat
  events : List SinkEvent
  meta : MetaCache
  droppedIds : List Nat
deriving DecidableEq, Repr

/-- Sum of matched counts over all channels,
`sum(x[True] for x in self._counts.values())`. -/
def sumTrues (cs : List (TopicKey × Cnt)) : Nat :=
  (cs.map fun p => p.2.trues).sum

/-- `Searcher._has_in_window` over a channel's status map. -/
def hasInWindowF (sts : List (Nat × Option Bool)) (len : Nat) (status : Option Bool)
    (full : Bool) : Bool :=
  if len = 0 ∨ (full ∧ sts.length < len) then false
  else decide (status ∈ lastN len (sts.map Prod.snd))

/-- One iteration of the `Searcher._emit_context` candidate loop: if the
candidate message is still pending, emit it as context with the index computed
from the channel's current position, and mark it emitted. -/
def emitContextOne (before : Bool) (k : TopicKey) (currentIndex : Int) (nCand : Nat)
    (st : SState) (pair : Nat × Nat) : SState :=
  let i := pair.1
  let msgid := pair.2
  if (alGet (alGetD st.statuses k []) msgid).getD (some false) = none then
    let idx : Int := currentIndex + i - (if before then (nCand : Int) - 1 else 1)
    let stamp := (alGet (alGetD st.stamps k []) msgid).getD 0
    let msg := (alGet (alGetD st.messages k []) msgid).getD ⟨0, 0⟩
    { st with
      counts := alUpd Cnt.zero (fun c => { c with falses := c.falses + 1 }) st.counts k
      events := st.events ++ [SinkEvent.emit k.1 idx stamp msg none]
      statuses := alUpd [] (fun w => alSet w msgid (some false)) st.statuses k }
  else st

/-- `Searcher._emit_context`: emits before/after context to the sink for the
latest match in the given channel. -/
def emitContext (args : SearchArgs) (st : SState) (k : TopicKey) (before : Bool) : SState :=
  let count := if before then args.BEFORE + 1 else args.AFTER
  let candidates := lastN count ((alGetD st.statuses k []).map Prod.fst)
  let currentIndex : Int := (alGetD st.counts k Cnt.zero).nones
  if count = 0 then st
  else candidates.enum.foldl (emitContextOne before k currentIndex candidates.length) st

/-- `Searcher._is_processable`: quota checks followed by the source-side
range/uniqueness/condition check (`srcProc`, abstracting
`self._source.is_processable`). -/
def isProcessableS (args : SearchArgs) (srcProc : String → Nat → Int → SMsg → Bool)
    (st : SState) (k : TopicKey) (stamp : Int) (msg : SMsg) : Bool :=
  if args.MAX_MATCHES ≠ 0 ∧ sumTrues st.counts ≥ args.MAX_MATCHES then false
  else if args.MAX_TOPIC_MATCHES ≠ 0 ∧
      (alGetD st.counts k Cnt.zero).trues ≥ args.MAX_TOPIC_MATCHES then false
  else if args.MAX_TOPICS ≠ 0 ∧
      (let topicsMatched := (st.counts.filter fun p => p.2.trues ≠ 0).map Prod.fst
       ¬ k ∈ topicsMatched ∧ topicsMatched.length ≥ args.MAX_TOPICS) then false
  else srcProc k.1 (alGetD st.counts k Cnt.zero).nones stamp msg

/-- Total message count the source reports for a channel,
`self._source.topics.get(k) or 0`. -/
def srcTotal (srcTopics : List (TopicKey × Option Nat)) (k : TopicKey) : Nat :=
  match alGet srcTopics k with
  | some (some c) => c
  | _ => 0

/-- `Searcher._is_max_done`: whether the max match count has been reached and
all owed after-context has been emitted. -/
def isMaxDone (args : SearchArgs) (srcTopics : List (TopicKey × Option Nat))
    (st : SState) : Bool :=
  let isMaxed1 : Bool :=
    if args.MAX_MATCHES ≠ 0 then decide (sumTrues st.counts ≥ args.MAX_MATCHES) else false
  let isMaxed : Bool :=
    if ¬ isMaxed1 ∧ args.MAX_TOPIC_MATCHES ≠ 0 then
      let countRequired := if args.MAX_TOPICS ≠ 0 then args.MAX_TOPICS else srcTopics.length
      let countMaxed := (st.counts.filter fun p =>
        p.2.trues ≥ args.MAX_TOPIC_MATCHES ∨ p.2.nones ≥ srcTotal srcTopics p.1).length
      decide (countMaxed ≥ countRequired)
    else isMaxed1
  if isMaxed then
    args.AFTER = 0 ∨ ¬ st.counts.any fun p =>
      hasInWindowF (alGetD st.statuses p.1 []) args.AFTER (some true) true
  else false

/-- `Searcher._prune_data`: drops history older than the context window from
the three per-channel maps; every message dropped from the message map has its
`TypeMeta` registry entry discarded. -/
def pruneData (lifetime : Int) (now : Int) (args : SearchArgs) (st : SState)
    (k : TopicKey) : SState :=
  let W := max args.BEFORE args.AFTER + 1
  let msgs := alGetD st.messages k []
  let dropped := msgs.take (msgs.length - W)
  { st with
    messages := alSet st.messages k (msgs.drop (msgs.length - W))
    stamps := alUpd [] (fun l => l.drop (l.length - W)) st.stamps k
    statuses := alUpd [] (fun l => l.drop (l.length - W)) st.statuses k
    meta := dropped.foldl (fun mc e => tmDiscard lifetime now e.2.mid mc) st.meta
    droppedIds := dropped.map fun e => e.2.mid }

/-- `Searcher._clear_data` as invoked at a batch boundary: clears the local
per-channel structures and the `TypeMeta` registry. -/
def clearData (st : SState) : SState :=
  { st with counts := [], messages := [], stamps := [], statuses := [],
            meta := tmClear st.meta }

/-- The fresh state produced by `Searcher._prepare`. -/
def searchInit : SState :=
  ⟨0, none, 0, [], [], [], [], false, none, [], ⟨[], [], [], 0⟩, []⟩

/-- Lines 78-81 of the loop body: batch-boundary accounting — accumulate the
matched totals, reset the counter and batch id, clear state if non-empty. -/
def stepBoundary (st : SState) (r : SRec) : SState :=
  if st.batch ≠ some r.batch then
    let st1 := { st with totalMatched := st.totalMatched + sumTrues st.counts,
                         counter := 0, batch := some r.batch, batchMatched := false }
    if st1.counts ≠ [] then clearData st1 else st1
  else st

/-- Lines 83-85 of the loop body: assign the next message id, register the
message with `TypeMeta` and with the per-channel maps. -/
def stepRegister (lifetime : Int) (st : SState) (r : SRec) : SState :=
  let msgid := st.counter + 1
  let k := r.key
  let st := { st with counter := msgid, meta := tmMake lifetime r.now r.msg.mid st.meta }
  { st with
    counts := alUpd Cnt.zero (fun c => { c with nones := c.nones + 1 }) st.counts k
    messages := alUpd [] (fun l => l ++ [(msgid, r.msg)]) st.messages k
    stamps := alUpd [] (fun l => l ++ [(msgid, r.stamp)]) st.stamps k
    statuses := alUpd [] (fun l => l ++ [(msgid, none)]) st.statuses k }

/-- Lines 86-101 of the loop body: the processability and match checks (the
`TypeMeta.make` inside `_is_processable` sweeps again), the Nth-match
decimation branch with context emission, the after-context branch, and the
`batch_matched` update. -/
def stepMatch (lifetime : Int) (args : SearchArgs)
    (srcProc : String → Nat → Int → SMsg → Bool) (matchFn : SMsg → Option SMsg)
    (st : SState) (r : SRec) : SState :=
  let msgid := st.counter
  let k := r.key
  let st := { st with meta := tmMake lifetime r.now r.msg.mid st.meta }
  let matched : Option SMsg :=
    if isProcessableS args srcProc st k r.stamp r.msg then matchFn r.msg else none
  let nth := if args.NTH_MATCH = 0 then 1 else args.NTH_MATCH
  let st :=
    if matched.isSome ∧ (alGetD st.counts k Cnt.zero).trues % nth = 0 then
      let st := { st with statuses := alUpd [] (fun w => alSet w msgid (some true)) st.statuses k }
      let st := { st with counts := alUpd Cnt.zero (fun c => { c with trues := c.trues + 1 }) st.counts k }
      let st := { st with events := st.events ++ [SinkEvent.emitMeta] }
      let st := emitContext args st k true
      { st with events := st.events ++
          [SinkEvent.emit k.1 ((alGetD st.counts k Cnt.zero).nones : Int) r.stamp r.msg matched] }
    else if matched.isSome then
      let st := { st with statuses := alUpd [] (fun w => alSet w msgid (some true)) st.statuses k }
      { st with counts := alUpd Cnt.zero (fun c => { c with trues := c.trues + 1 }) st.counts k }
    else if args.AFTER ≠ 0 ∧ hasInWindowF (alGetD st.statuses k []) (args.AFTER + 1)
        (some true) false then
      emitContext args st k false
    else st
  { st with batchMatched := st.batchMatched || matched.isSome }

/-- Lines 103-106 of the loop body: prune the processed channel's window and
stop the batch early once quotas are satisfied and no after-context is owed. -/
def stepFinish (lifetime : Int) (args : SearchArgs)
    (srcTopics : List (TopicKey × Option Nat)) (st : SState) (r : SRec) : SState :=
  let st := pruneData lifetime r.now args st r.key
  if st.batchMatched ∧ isMaxDone args srcTopics st then
    { st with events := st.events ++ [SinkEvent.flush], skipBatch := some r.batch }
  else st

/-- One iteration of the `Searcher.search` loop body for the record `r`,
faithful to the source order: batch-boundary accounting, registration,
processability and matching, Nth-match decimation, context emission, pruning,
and the early-stop check.  `matchFn` abstracts `self.get_match`. -/
def searchStep (lifetime : Int) (args : SearchArgs)
    (srcTopics : List (TopicKey × Option Nat))
    (srcProc : String → Nat → Int → SMsg → Bool) (matchFn : SMsg → Option SMsg)
    (st : SState) (r : SRec) : SState :=
  stepFinish lifetime args srcTopics
    (stepMatch lifetime args srcProc matchFn
      (stepRegister lifetime (stepBoundary st r) r) r) r

/-- The `Searcher.search` loop over a record stream, from a given state.
A record belonging to a batch closed early by `source.close_batch()` is never
yielded by the source and is skipped. -/
def searchFold (lifetime : Int) (args : SearchArgs)
    (srcTopics : List (TopicKey × Option Nat))
    (srcProc : String → Nat → Int → SMsg → Bool) (matchFn : SMsg → Option SMsg)
    (st : SState) (rs : List SRec) : SState :=
  rs.foldl
    (fun st r => if st.skipBatch = some r.batch then st
                 else searchStep lifetime args srcTopics srcProc matchFn st r)
    st

/-- The full `Searcher.search` loop over a record stream. -/
def searchRun (lifetime : Int) (args : SearchArgs)
    (srcTopics : List (TopicKey × Option Nat))
    (srcProc : String → Nat → Int → SMsg → Bool) (matchFn : SMsg → Option SMsg)
    (rs : List SRec) : SState :=
  searchFold lifetime args srcTopics srcProc matchFn searchInit rs

/-- The return value of `Searcher.search`:
`total_matched + sum(x[True] for x in self._counts.values())`. -/
def searchReturn (lifetime : Int) (args : SearchArgs)
    (srcTopics : List (TopicKey × Option Nat))
    (srcProc : String → Nat → Int → SMsg → Bool) (matchFn : SMsg → Option SMsg)
    (rs : List SRec) : Nat :=
  let st := searchRun lifetime args srcTopics srcProc matchFn rs
  st.totalMatched + sumTrues st.counts

/-- Number of match emissions (sink `emit` calls with a non-`None` match
argument) in an event trace. -/
def matchEmitCount (evs : List SinkEvent) : Nat :=
  (evs.filter fun e => match e with
    | SinkEvent.emit _ _ _ _ (some _) => true
    | _ => false).length

/-- A source-side `is_processable` that accepts every record (no range or
uniqueness filters, no conditions configured). -/
def alwaysProc : String → Nat → Int → SMsg → Bool := fun _ _ _ _ => true

/-- The claim C1 configuration: `before=2, after=1`, no quotas, no Nth-match
decimation. -/
def c1args : SearchArgs := ⟨2, 1, 0, 0, 0, 0⟩

/-- One record of the claim-side reference accountant for Nth-match
decimation over a single channel: the accumulator holds the position
processed, the number of matches seen, and the events the sink is expected to
receive — every record at match ordinal `m` (0-based) with `m % nth = 0` is
emitted, all other matches are counted but suppressed. -/
def nthStep (k : TopicKey) (matchFn : SMsg → Option SMsg) (nth : Nat)
    (acc : Nat × Nat × List SinkEvent) (r : SRec) : Nat × Nat × List SinkEvent :=
  let pos := acc.1 + 1
  if (matchFn r.msg).isSome then
    if acc.2.1 % nth = 0 then
      (pos, acc.2.1 + 1, acc.2.2 ++
        [SinkEvent.emitMeta,
         SinkEvent.emit k.1 (pos : Int) r.stamp r.msg (matchFn r.msg)])
    else (pos, acc.2.1 + 1, acc.2.2)
  else (pos, acc.2.1, acc.2.2)

/-- The claim-side reference accountant for Nth-match decimation run over a
stream. -/
def nthRef (k : TopicKey) (matchFn : SMsg → Option SMsg) (nth : Nat)
    (rs : List SRec) : Nat × Nat × List SinkEvent :=
  rs.foldl (nthStep k matchFn nth) (0, 0, [])

/-- One record of the claim-side reference matched-record counter: the
accumulator holds the current batch, the per-batch position, and the number
of records so far that passed the source-side processability check and
matched; a batch boundary resets the position but keeps the count. -/
def c10Step (k : TopicKey) (srcProc : String → Nat → Int → SMsg → Bool)
    (matchFn : SMsg → Option SMsg) (acc : Option Nat × Nat × Nat) (r : SRec) :
    Option Nat × Nat × Nat :=
  let acc := if acc.1 ≠ some r.batch then ((some r.batch : Option Nat), 0, acc.2.2) else acc
  let pos := acc.2.1 + 1
  if srcProc k.1 pos r.stamp r.msg ∧ (matchFn r.msg).isSome then
    (acc.1, pos, acc.2.2 + 1)
  else (acc.1, pos, acc.2.2)

/-- Claim-side reference count of records that pass the source-side
processability check and match the patterns, summed across batches (batch
boundaries reset the per-channel position used by the source check). -/
def matchedRef (k : TopicKey) (srcProc : String → Nat → Int → SMsg → Bool)
    (matchFn : SMsg → Option SMsg) (rs : List SRec) : Nat :=
  (rs.foldl (c10Step k srcProc matchFn) ((none : Option Nat), 0, 0)).2.2

/-! ### `Searcher.get_match` — the pattern-matching engine

Message payloads are modelled as finite field trees whose leaves carry the
`str()`-rendered field value: `vstr` a rendered scalar, `vmsg` a nested
message (the list/tuple and numeric special cases of `process_message` are
not exercised by the claims).  A compiled `re.Pattern` is modelled by its
match-span semantics (`find`), its optional field-path matcher (`pathOk`),
and whether it is the `ANY_MATCHES[0]` object (`isAny`; Python set
membership over compiled patterns is object identity). -/

mutual
inductive RVal where
  | vstr : List Char → RVal
  | vmsg : RFields → RVal
deriving DecidableEq, Repr
inductive RFields where
  | fnil : RFields
  | fcons : String → RVal → RFields → RFields
deriving DecidableEq, Repr
end

/-- A compiled content pattern entry of `_patterns["content"]`. -/
structure CPat where
  pathOk : Option (List String → Bool)
  find : List Char → List (Nat × Nat)
  isAny : Bool

/-- `re.finditer` spans of the `ANY_MATCHES[0]` expression `(.*)` with
`re.DOTALL`: the whole string followed by the trailing empty match; on the
empty string, the single empty match. -/
def anyFind (v : List Char) : List (Nat × Nat) :=
  if v.length = 0 then [(0, 0)] else [(0, v.length), (v.length, v.length)]

/-- `Searcher.ANY_MATCHES[0]`, `((), re.compile("(.*)", re.DOTALL))`. -/
def anyPat : CPat := ⟨none, anyFind, true⟩

/-- The content/selection state of `Searcher._patterns` plus `args.INVERT`. -/
structure MatchCfg where
  pats : List CPat
  invert : Bool
  selects : List (List String)
  noselects : List (List String)

/-- Modelled from the spec: segmentwise prefix compatibility of a field-path
pattern with a concrete path, `*` matching any one segment; either side may
extend the other. -/
def prefixCompat : List String → List String → Bool
  | [], _ => true
  | _, [] => true
  | p :: ps, s :: ss => (p == "*" || p == s) && prefixCompat ps ss

/-- Modelled from the spec: the visible field set of `filter_fields` — with
select rules present only fields whose path matches some select rule are
kept; noselect rules remove matching fields regardless. -/
def fieldVisible (selects noselects : List (List String)) (path : List String) : Bool :=
  (selects.isEmpty || selects.any fun p => prefixCompat p path) &&
    !(noselects.any fun p => prefixCompat p path)

/-- Modelled from the spec: the start marker wrapped around matched spans
(`MatchMarkers.START`). -/
def markerStart : List Char := ['\x01']

/-- Modelled from the spec: the end marker wrapped around matched spans
(`MatchMarkers.END`). -/
def markerEnd : List Char := ['\x02']

/-- Modelled from the spec: one insertion step of `merge_spans`, merging
overlapping or adjacent spans into sorted disjoint spans. -/
def insertSpan (s : Nat × Nat) : List (Nat × Nat) → List (Nat × Nat)
  | [] => [s]
  | t :: rest =>
    if s.2 < t.1 then s :: t :: rest
    else if t.2 < s.1 then t :: insertSpan s rest
    else insertSpan (min s.1 t.1, max s.2 t.2) rest

/-- Modelled from the spec: `merge_spans`. -/
def mergeSpans (spans : List (Nat × Nat)) : List (Nat × Nat) :=
  spans.foldl (fun acc s => insertSpan s acc) []

/-- Marker insertion, last span first (`for a, b in reversed(spans)`), so
earlier indices stay valid. -/
def insertMarkers (spans : List (Nat × Nat)) (v : List Char) : List Char :=
  spans.foldr (fun s acc =>
    acc.take s.1 ++ markerStart ++ (acc.drop s.1).take (s.2 - s.1)
      ++ markerEnd ++ acc.drop s.2) v

/-- `Searcher.get_match.wrap_matches` on a rendered value (the collection
bracket cases are not exercised, `is_collection=False`): collect the
non-empty-match spans of every applicable pattern (only the first one per
pattern when inverted), record which patterns matched, then wrap — the
merged spans when not inverted; when inverted no spans at all, or the whole
value when nothing matched. -/
def wrapStep (cfg : MatchCfg) (v : List Char) (top : List String)
    (acc : List (Nat × Nat) × List Nat) (ip : Nat × CPat) : List (Nat × Nat) × List Nat :=
  if (match ip.2.pathOk with | none => true | some f => f top) then
    let ms := (ip.2.find v).filter fun s => v.isEmpty || s.1 != s.2
    let ms := if cfg.invert then ms.take 1 else ms
    if ms = [] then acc
    else (acc.1 ++ ms, if ip.1 ∈ acc.2 then acc.2 else acc.2 ++ [ip.1])
  else acc

def wrapMatches (cfg : MatchCfg) (v : List Char) (top : List String)
    (matched : List Nat) : List Char × List Nat :=
  let sm := cfg.pats.enum.foldl (wrapStep cfg v top) ([], matched)
  let spans := if ¬ cfg.invert then mergeSpans sm.1
               else if sm.1 ≠ [] then [] else [(0, v.length)]
  (insertMarkers spans v, sm.2)

mutual
/-- `Searcher.get_match.process_message`: walks the visible field tree,
replacing leaf values whose wrapped rendering changed length; at the top of
an empty record with nothing matched, no select rules, no inversion and only
the universal pattern, forces the degenerate any-match
(`# Ensure Empty any-match`). -/
def processMessage (cfg : MatchCfg) (obj : RVal) (top : List String)
    (matched : List Nat) : RVal × List Nat :=
  match obj with
  | .vmsg fs =>
    let r := processFields cfg fs top matched
    let m := if top = [] ∧ r.2 = [] ∧ cfg.selects = [] ∧ fs = .fnil ∧ ¬ cfg.invert
        ∧ cfg.pats.all (fun p => p.isAny) then List.range cfg.pats.length else r.2
    (.vmsg r.1, m)
  | .vstr s =>
    let w := wrapMatches cfg s top matched
    let obj2 := if s.length ≠ w.1.length then RVal.vstr w.1 else RVal.vstr s
    let m := if top = [] ∧ w.2 = [] ∧ cfg.selects = [] ∧ s = [] ∧ ¬ cfg.invert
        ∧ cfg.pats.all (fun p => p.isAny) then List.range cfg.pats.length else w.2
    (obj2, m)

/-- The field loop of `process_message` over the visible fields. -/
def processFields (cfg : MatchCfg) (fs : RFields) (top : List String)
    (matched : List Nat) : RFields × List Nat :=
  match fs with
  | .fnil => (.fnil, matched)
  | .fcons k v rest =>
    let path := top ++ [k]
    let rv :=
      if fieldVisible cfg.selects cfg.noselects path then
        match v with
        | .vmsg _ => processMessage cfg v path matched
        | .vstr s =>
          let w := wrapMatches cfg s path matched
          (if s.length ≠ w.1.length then RVal.vstr w.1 else RVal.vstr s, w.2)
      else (v, matched)
    let rr := processFields cfg rest top rv.2
    (.fcons k rv.1 rr.1, rr.2)
end

mutual
/-- The `str()`-rendered leaf values of a record in field order
(`rosapi.iter_message_fields`). -/
def leafVals : RVal → List (List Char)
  | .vstr s => [s]
  | .vmsg fs => leafValsF fs

/-- The rendered leaf values of a field list. -/
def leafValsF : RFields → List (List Char)
  | .fnil => []
  | .fcons _ v rest => leafVals v ++ leafValsF rest
end

/-- Python `repr` escaping of one character of a rendered string value. -/
def pyReprChar (c : Char) : List Char :=
  if c = '\n' then ['\\', 'n']
  else if c = '\\' then ['\\', '\\']
  else if c = '\'' then ['\\', '\'']
  else [c]

/-- Python `repr` of a rendered string value: quoted, with escapes. -/
def pyRepr (s : List Char) : List Char :=
  '\'' :: s.flatMap pyReprChar ++ ['\'']

/-- The brute-precheck probe text,
`"\n".join("%r" % (v,) for _, v, _ in rosapi.iter_message_fields(msg))`. -/
def flattenRepr (msg : RVal) : List Char :=
  List.intercalate ['\n'] ((leafVals msg).map pyRepr)

/-- `Searcher._passthrough` as computed in `_prepare`: no highlighting sink,
no select/noselect filters, not inverted, and only the universal pattern. -/
def passthroughOf (cfg : MatchCfg) (highlighting : Bool) : Bool :=
  !highlighting && cfg.selects.isEmpty && cfg.noselects.isEmpty && !cfg.invert
    && cfg.pats.all fun p => p.isAny

/-- `Searcher.get_match`: passthrough shortcut, brute precheck over the
flattened record text, then the recursive walk and the final verdict. -/
def getMatch (cfg : MatchCfg) (highlighting : Bool)
    (prechecks : List (List Char → Bool)) (msg : RVal) : Option RVal :=
  if passthroughOf cfg highlighting then some msg
  else if ¬ prechecks.isEmpty ∧ ¬ (prechecks.all fun p => p (flattenRepr msg)) then none
  else
    let r := processMessage cfg msg [] []
    let yes := if cfg.invert then r.2.isEmpty else r.2.length = cfg.pats.length
    if yes then some r.1 else none

/-- The pattern state `_parse_patterns` builds when zero content patterns
are configured (lines 192-193): exactly the universal `ANY_MATCHES[0]` rule,
no field selection; the brute precheck list stays empty. -/
def anyCfg (invert : Bool) : MatchCfg := ⟨[anyPat], invert, [], []⟩

/-- Recording pattern index 0 in the matched set (`matched[0] = True`). -/
def upd0 (m : List Nat) : List Nat := if 0 ∈ m then m else m ++ [0]

mutual
/-- Whether a record contains any rendered leaf value. -/
def hasLeaf : RVal → Bool
  | .vstr _ => true
  | .vmsg fs => hasLeafF fs

/-- Whether a field list contains any rendered leaf value. -/
def hasLeafF : RFields → Bool
  | .fnil => false
  | .fcons _ v rest => hasLeaf v || hasLeafF rest
end

/-- Whether a record is the empty message (`std_msgs/Empty`-like). -/
def isEmptyRec : RVal → Bool
  | .vmsg .fnil => true
  | _ => false

mutual
/-- Every rendered leaf value wrapped whole in match markers — what the
engine produces in inverted mode when no content rule matched anywhere. -/
def markAll : RVal → RVal
  | .vstr s => .vstr (markerStart ++ s ++ markerEnd)
  | .vmsg fs => .vmsg (markAllF fs)

/-- `markAll` over a field list. -/
def markAllF : RFields → RFields
  | .fnil => .fnil
  | .fcons k v rest => .fcons k (markAll v) (markAllF rest)
end

/-- Match spans of the content expression `a.b` — `a`, any one character,
`b`: with `re.DOTALL` (`dotall = true`) the middle character may be a
newline, without it (the brute precheck is compiled with `re.I | re.M`
only) it may not. -/
def adotbFind (dotall : Bool) (v : List Char) : List (Nat × Nat) :=
  (List.range v.length).filterMap fun i =>
    match v.drop i with
    | 'a' :: c :: 'b' :: _ => if dotall ∨ c ≠ '\n' then some (i, i + 3) else none
    | _ => none

/-- The compiled content pattern for `a.b`,
`re.compile("(a.b)", re.DOTALL)`. -/
def adotbPat : CPat := ⟨none, adotbFind true, false⟩

/-- The brute precheck for `a.b`, `re.compile("a.b", re.I | re.M)`:
whether the expression occurs in the probe text at all
(`any(p.finditer(text))`). -/
def adotbPrecheck : List Char → Bool := fun text => !(adotbFind false text).isEmpty

/-- The C9 record: one string field rendered as `"a\nb"`. -/
def c9msg : RVal := .vmsg (.fcons "f" (.vstr ['a', '\n', 'b']) .fnil)

/-- The C9 pattern state `_parse_patterns` builds for the single pattern
`a.b` (not inverted, so `BRUTE` holds and the precheck is installed). -/
def c9cfg : MatchCfg := ⟨[adotbPat], false, [], []⟩

/-- A content pattern that matches nowhere (e.g. a literal absent from every
field value). -/
def c4pat : CPat := ⟨none, fun _ => [], false⟩

/-! ### `ConditionMixin` — condition-expression gating

A configured condition is its expression text (used for error logging), the
channel tokens it references, and the compiled code object — external Python
`eval` — modelled as a function from the wildcard-remap assignment to either
a boolean or an exception: `CErr.noMsg` is `ConditionMixin.NoMessageException`
(the "no data yet" control signal), `CErr.err` any other runtime exception.
A gate outcome `.error e` means the error was logged for expression `e` and
the exception re-raised; `.ok` outcomes log nothing. -/

inductive CErr where
  | noMsg : CErr
  | err : CErr
deriving DecidableEq, Repr

/-- `ConditionMixin.Topic`: history proxy handed to condition expressions. -/
structure TopicProxy where
  count : Nat
  firsts : List SMsg
  lasts : List SMsg
deriving Repr

/-- A `<topic x>` resolution: a `Topic` proxy or the falsy `Empty`. -/
inductive TopicObj where
  | topic : TopicProxy → TopicObj
  | empty : TopicObj

/-- `Topic.__getattr__` / `Empty.__getattr__`: attribute access forwards to
the latest retained message, raising `NoMessageException` when there is none
(`Empty`, or a `Topic` with no retained messages). -/
def topicAttr (o : TopicObj) : Except CErr SMsg :=
  match o with
  | .empty => .error CErr.noMsg
  | .topic p =>
    match p.lasts.getLast? with
    | none => .error CErr.noMsg
    | some m => .ok m

/-- The `ConditionMixin` state consulted during one gate call. -/
structure CondState where
  lastmsgs : List (TopicKey × List SMsg)
  firstmsgs : List (TopicKey × List SMsg)
  counts : List (TopicKey × Nat)
  wildcards : List (String × (String → Bool))

/-- One configured condition. -/
structure CCond where
  expr : String
  topics : List String
  code : List (String × Option TopicKey) → Except CErr Bool

/-- `itertools.product` over the per-wildcard variant lists, leftmost
varying slowest. -/
def crossProd : List (List α) → List (List α)
  | [] => [[]]
  | l :: rest => l.flatMap fun x => (crossProd rest).map fun ys => x :: ys

/-- `ConditionMixin._get_topic_instance`: resolve a channel token through
the remap, else by name among the retained channels; a resolution outside
the source's counts is the falsy `Empty`. -/
def getTopicInstance (st : CondState) (remap : List (String × Option TopicKey))
    (topic : String) : TopicObj :=
  let key : Option TopicKey :=
    match alGet remap topic with
    | some (some k) => some k
    | some none => none
    | none => (st.lastmsgs.map Prod.fst).find? fun k => k.1 = topic
  match key with
  | none => TopicObj.empty
  | some k =>
    if (alGet st.counts k).isSome then
      TopicObj.topic ⟨alGetD st.counts k 0, alGetD st.firstmsgs k [], alGetD st.lastmsgs k []⟩
    else TopicObj.empty

/-- Lines 264-270 of `is_processable`: the concrete-assignment attempts for
one condition — real channels currently retained that match each wildcard
token, the `(wt, None)` placeholder when none do, the full cross-product,
and the single empty assignment when the condition has no wildcard tokens. -/
def attemptsOf (st : CondState) (c : CCond) : List (List (String × Option TopicKey)) :=
  let wildcarded := c.topics.filter fun t => (alGet st.wildcards t).isSome
  let variants := wildcarded.map fun wt =>
    let tt := (st.lastmsgs.map Prod.fst).filter fun k =>
      ((alGet st.wildcards wt).getD (fun _ => false)) k.1
    if tt.isEmpty then [(wt, (none : Option TopicKey))] else tt.map fun k => (wt, some k)
  if variants.isEmpty then [[]] else crossProd variants

/-- Lines 272-282 of `is_processable`: the attempt loop — `result` starts
false, a `NoMessageException` is passed over silently, any other exception
is logged with the expression text and re-raised, and a truthy result breaks
out. -/
def attemptsRun (expr : String)
    (code : List (String × Option TopicKey) → Except CErr Bool) :
    List (List (String × Option TopicKey)) → Bool → Except String Bool
  | [], result => .ok result
  | r :: rest, result =>
    match code r with
    | .ok v => if v then .ok v else attemptsRun expr code rest v
    | .error CErr.noMsg => attemptsRun expr code rest result
    | .error CErr.err => .error expr

/-- The condition loop of `is_processable`: each condition must come out
true, a false one breaks out. -/
def condGateLoop (st : CondState) : List CCond → Except String Bool
  | [] => .ok true
  | c :: rest =>
    match attemptsRun c.expr c.code (attemptsOf st c) false with
    | .error e => .error e
    | .ok b => if b then condGateLoop st rest else .ok false

/-- `ConditionMixin.is_processable`: true with no conditions configured,
else the condition loop. -/
def condProcessable (st : CondState) (conds : List CCond) : Except String Bool :=
  if conds.isEmpty then .ok true else condGateLoop st conds

/-- The C6 scenario channels: two real channels matching `*/ctrl` and one
matching `*/speed`. -/
def c6A : TopicKey := ("a/ctrl", "T", "h")

/-- The `*/ctrl` channel with no data from the reading source yet (retained
for conditions, absent from the source counts, so it resolves to `Empty`). -/
def c6B : TopicKey := ("b/ctrl", "T", "h")

/-- The `*/speed` channel. -/
def c6S : TopicKey := ("s/speed", "T", "h")

/-- The C6 scenario state: `b/ctrl` retained but not counted (no data yet
for evaluation), `a/ctrl` with a latest message whose `enabled` field is
truthy, `s/speed` with a latest message whose `value` field is `5`. -/
def c6st : CondState :=
  { lastmsgs := [(c6B, [⟨9, 0⟩]), (c6A, [⟨1, 1⟩]), (c6S, [⟨2, 5⟩])]
    firstmsgs := []
    counts := [(c6A, 1), (c6S, 1)]
    wildcards := [("*/ctrl", fun t => "/ctrl".data.isSuffixOf t.data),
                  ("*/speed", fun t => "/speed".data.isSuffixOf t.data)] }

/-- The compiled code of `<topic */ctrl>.enabled and <topic */speed>.value > 0`
over `c6st`: lazy `and`, attribute access through the topic proxies, the
`enabled` field modelled as a nonzero `val`, `value` as `val`. -/
def c6code (remap : List (String × Option TopicKey)) : Except CErr Bool :=
  match topicAttr (getTopicInstance c6st remap "*/ctrl") with
  | .error e => .error e
  | .ok m1 =>
    if m1.val ≠ 0 then
      match topicAttr (getTopicInstance c6st remap "*/speed") with
      | .error e => .error e
      | .ok m2 => .ok (decide (m2.val > 0))
    else .ok false

/-- The C6 condition. -/
def c6cond : CCond := ⟨"cond-ctrl-speed", ["*/ctrl", "*/speed"], c6code⟩

/-! ### `rosapi.calculate_definition_hash` — schema hashing

Definition texts are processed line-wise (`str.splitlines`) and are
modelled as lists of newline-free lines (`List (List Char)`).  The external
`hashlib.md5(...).hexdigest()` is the `digest` parameter; recursion into
subtype definitions is bounded by an explicit fuel.  The environment is
ROS2 (`realapi = ros2`, so `ROS_COMMON_TYPES` includes the
`builtin_interfaces` time types and `scalar` strips `[` and `<=`).
Determinism of the Python function (under `@memoize`) corresponds to the
model being a pure function of its inputs. -/

/-- Python `\s` on definition lines (newline-free). -/
def isSpaceC (c : Char) : Bool := c == ' ' || c == '\t'

/-- `set(line) == set("=")`: the subtype-separator test of
`calculate_definition_hash`, and equally the `^(=+)$` alternative of the
separator regex in `parse_definition_subtypes` — nonempty, all `=`. -/
def isSepLine (l : List Char) : Bool := !l.isEmpty && l.all (· == '=')

/-- `STR_CONST_RGX = ^w?string\s+([^\s=#]+)\s*=` as a deterministic scanner
(the character classes make the regex backtrack-free). -/
def strConstMatch (l : List Char) : Bool :=
  let body : List Char → Bool := fun r =>
    let ws := r.takeWhile isSpaceC
    if ws.isEmpty then false
    else
      let r1 := r.drop ws.length
      let nm := r1.takeWhile fun c => !isSpaceC c && c != '=' && c != '#'
      if nm.isEmpty then false
      else
        let r2 := r1.drop nm.length
        let r3 := r2.drop (r2.takeWhile isSpaceC).length
        r3.head? == some '='
  if "wstring".data.isPrefixOf l then body (l.drop 7)
  else if "string".data.isPrefixOf l then body (l.drop 6)
  else false

/-- Comment stripping, `line[:line.index("#")]` unless the line is a string
constant declaration (string constants cannot have line comments). -/
def stripComment (l : List Char) : List Char :=
  if '#' ∈ l ∧ strConstMatch l = false then l.takeWhile (· != '#') else l

/-- The groups of a `FIELD_RGX` match: type, name, optional constant value
(group 4), optional default-value tail (group 6). -/
structure FieldG where
  g1 : List Char
  g2 : List Char
  g4 : Option (List Char)
  g6 : Option (List Char)
deriving DecidableEq, Repr

/-- The `(\s+([^\n]+))?` tail of `FIELD_RGX`: a whitespace run followed by a
nonempty remainder; with only trailing whitespace the `\s+` backs off one
character so group 6 becomes that final whitespace character. -/
def fieldTail5 (rest : List Char) : Option (List Char) × Option (List Char) :=
  let sp := rest.takeWhile isSpaceC
  if sp.isEmpty then (none, none)
  else
    let r := rest.drop sp.length
    if !r.isEmpty then (none, some r)
    else if sp.length ≥ 2 then (none, some [sp.getLastD ' '])
    else (none, none)

/-- The `(\s*=\s*([^\n]+))?(\s+([^\n]+))?` tail of `FIELD_RGX` after the
name group, backtracking resolved: the constant alternative needs `=` after
optional whitespace and a nonempty value (whitespace backing off by one
character at most); otherwise the default-value alternative. -/
def fieldTail (rest : List Char) : Option (List Char) × Option (List Char) :=
  let sp := rest.takeWhile isSpaceC
  let r := rest.drop sp.length
  match r.head? with
  | some '=' =>
    let r4 := r.drop 1
    if r4.isEmpty then fieldTail5 rest
    else
      let sp2 := r4.takeWhile isSpaceC
      (some (r4.drop (min sp2.length (r4.length - 1))), none)
  | _ => fieldTail5 rest

/-- `FIELD_RGX = ^([a-z][^\s:]+)\s+([^\s=]+)(\s*=\s*([^\n]+))?(\s+([^\n]+))?`
with `re.I`, backtracking resolved: group 1 is the maximal run of
non-whitespace-non-colon characters from the start — alphabetic first
character, length at least two, terminated by actual whitespace. -/
def fieldMatch (l : List Char) : Option FieldG :=
  let r1 := l.takeWhile fun c => !isSpaceC c && c != ':'
  match l.head? with
  | none => none
  | some c0 =>
    if ¬ c0.isAlpha then none
    else if r1.length < 2 then none
    else
      let rest1 := l.drop r1.length
      if (rest1.head?.map isSpaceC).getD false = false then none
      else
        let ws := rest1.takeWhile isSpaceC
        let rest2 := rest1.drop ws.length
        let g2 := rest2.takeWhile fun c => !isSpaceC c && c != '='
        if g2.isEmpty then none
        else
          let t := fieldTail (rest2.drop g2.length)
          some ⟨r1, g2, t.1, t.2⟩

/-- The `FIELD_RGX` variant of `parse_definition_subtypes`
(`^([a-z][^\s]+)\s+([^\s=]+)...`): group 1 may contain `:`. -/
def fieldMatch2 (l : List Char) : Option FieldG :=
  let r1 := l.takeWhile fun c => !isSpaceC c
  match l.head? with
  | none => none
  | some c0 =>
    if ¬ c0.isAlpha then none
    else if r1.length < 2 then none
    else
      let rest1 := l.drop r1.length
      if (rest1.head?.map isSpaceC).getD false = false then none
      else
        let ws := rest1.takeWhile isSpaceC
        let rest2 := rest1.drop ws.length
        let g2 := rest2.takeWhile fun c => !isSpaceC c && c != '='
        if g2.isEmpty then none
        else
          let t := fieldTail (rest2.drop g2.length)
          some ⟨r1, g2, t.1, t.2⟩

/-- The `<=`-cut of `ros2.scalar`. -/
def cutAtLeq : List Char → List Char
  | [] => []
  | '<' :: '=' :: _ => []
  | c :: rest => c :: cutAtLeq rest

/-- `ros2.scalar`: cut at `[`, then at `<=`. -/
def scalarOf (t : List Char) : List Char := cutAtLeq (t.takeWhile (· != '['))

/-- `rosapi.ROS_COMMON_TYPES` after ROS2 init:
`ROS_NUMERIC_TYPES + ROS_STRING_TYPES + ros2.ROS_TIME_TYPES`. -/
def rosCommonTypes : List (List Char) :=
  ["byte", "char", "int8", "int16", "int32", "int64", "uint8", "uint16",
   "uint32", "uint64", "float32", "float64", "bool", "string", "wstring",
   "builtin_interfaces/Time", "builtin_interfaces/Duration"].map String.data

/-- `typename.rsplit("/", 1)[0]`: the package part, the whole name when
there is no slash. -/
def pkgOf (t : List Char) : List Char :=
  if '/' ∈ t then ((t.reverse.dropWhile (· != '/')).drop 1).reverse else t

/-- Subtype resolution of an embedded type name (lines 341-342, 658-659). -/
def resolveSub (pkg st : List Char) : List Char :=
  if '/' ∈ st then st
  else if st = "Header".data then "std_msgs/Header".data
  else pkg ++ '/' :: st

/-- The `MSG: pkg/Type` header alternative of the separator regex. -/
def msgHeadOf (l : List Char) : Option (List Char) :=
  if "MSG: ".data.isPrefixOf l ∧ l.length > 5 then some (l.drop 5) else none

/-- The 80-character separator of nesting addenda (`"=" * 80`). -/
def sep80 : List Char := List.replicate 80 '='

/-- A `MSG:` header line for an addendum. -/
def msgHeadLine (t : List Char) : List Char := "MSG: ".data ++ t

/-- Python `str.rstrip` on one line. -/
def rstripStr (l : List Char) : List Char := (l.reverse.dropWhile isSpaceC).reverse

/-- Python `str.rstrip` on a joined line list: trailing all-whitespace lines
drop, the last remaining line loses trailing whitespace. -/
def rstripLines (ls : List (List Char)) : List (List Char) :=
  match ls.reverse.dropWhile (fun l => l.all isSpaceC) with
  | [] => []
  | last :: rest => (rstripStr last :: rest).reverse

/-- Python `str.strip` (both ends). -/
def stripWS (l : List Char) : List Char := rstripStr (l.dropWhile isSpaceC)

/-- First phase of `parse_definition_subtypes` (lines 633-646): split the
full text into named subtype definitions at separator and `MSG:` lines;
content before any header is dropped, a new header discards pending
unflushed lines. -/
def parseStep (acc : List Char × List (List Char) × List (List Char × List (List Char)))
    (line : List Char) : List Char × List (List Char) × List (List Char × List (List Char)) :=
  if isSepLine line then
    if acc.1 ≠ [] then ([], [], alSet acc.2.2 acc.1 acc.2.1) else acc
  else
    match msgHeadOf line with
    | some t => (t, [], acc.2.2)
    | none => if acc.1 ≠ [] then (acc.1, acc.2.1 ++ [line], acc.2.2) else acc

def parseSub1 (lines : List (List Char)) : List (List Char × List (List Char)) :=
  let fin := lines.foldl parseStep ([], [], [])
  if fin.1 ≠ [] then alSet fin.2.2 fin.1 fin.2.1 else fin.2.2

/-- `parse_definition_subtypes` (both phases): the split plus the nesting
concatenation loop that appends each referenced known subtype's definition
(separator, `MSG:` header, definition text) to its parent, once each. -/
def parseSubs (lines : List (List Char)) : List (List Char × List (List Char)) :=
  let res1 := parseSub1 lines
  res1.foldl
    (fun res p =>
      (p.2.foldl
        (fun (acc : List (List Char × List (List Char)) × List (List Char)) line =>
          match fieldMatch2 line with
          | none => acc
          | some g =>
            let st := scalarOf g.g1
            if st ∈ rosCommonTypes then acc
            else
              let fulltype := resolveSub (pkgOf p.1) st
              if (alGet acc.1 fulltype).isSome ∧ ¬ fulltype ∈ acc.2 then
                let ext := alGetD acc.1 fulltype []
                (alSet acc.1 p.1 (rstripLines (alGetD acc.1 p.1 []) ++ [[]] ++ [sep80]
                    ++ [msgHeadLine fulltype] ++ (if ext.isEmpty then [[]] else ext)),
                 acc.2 ++ [fulltype])
              else acc)
        (res, [])).1)
    res1

/-- `dict(extradefs, **parse_definition_subtypes(msgdef))`. -/
def mergeDefs (extra parsed : List (List Char × List (List Char))) :
    List (List Char × List (List Char)) :=
  parsed.foldl (fun acc p => alSet acc p.1 p.2) extra

/-- One line of the first pass (constants): a `FIELD_RGX` match with a
constant group emits `"type name=value"` with the value stripped. -/
def constProc (line : List Char) : Option (List Char) :=
  match fieldMatch line with
  | some g =>
    match g.g4 with
    | some g4 => some (g.g1 ++ ' ' :: g.g2 ++ '=' :: stripWS g4)
    | none => none
  | none => none

/-- The first pass of `calculate_definition_hash`: lines before the first
separator, comment-stripped, constants only. -/
def constLines (md : List (List Char)) : List (List Char) :=
  (md.takeWhile fun l => !isSepLine l).filterMap fun line => constProc (stripComment line)

/-- One line of the second pass (fields): built-in types keep their type
string and absorb a default-value tail into the name; embedded types
substitute the recursively computed subtype hash. -/
def fieldProc (resolver : List Char → List Char) (pkg : List Char)
    (line : List Char) : Option (List Char) :=
  match fieldMatch line with
  | some g =>
    match g.g4 with
    | some _ => none
    | none =>
      let st := scalarOf g.g1
      if st ∈ rosCommonTypes then
        let namestr := match g.g6 with
          | some g6 => stripWS (g.g2 ++ ' ' :: g6)
          | none => g.g2
        some (g.g1 ++ ' ' :: namestr)
      else some (resolver (resolveSub pkg st) ++ ' ' :: g.g2)
  | none => none

/-- The second pass of `calculate_definition_hash`. -/
def fieldLines (md : List (List Char)) (resolver : List Char → List Char)
    (pkg : List Char) : List (List Char) :=
  (md.takeWhile fun l => !isSepLine l).filterMap fun line =>
    fieldProc resolver pkg (stripComment line)

/-- `"\n".join(lines)`. -/
def joinLines (ls : List (List Char)) : List Char := List.intercalate ['\n'] ls

/-- `calculate_definition_hash` with explicit recursion fuel (the Python
recursion is bounded by the subtype nesting depth; a missing subtype, a
`KeyError` in the source, is modelled by the empty definition). -/
def calcHash : Nat → (List Char → List Char) → List Char → List (List Char) →
    List (List Char × List (List Char)) → List Char
  | 0, _, _, _, _ => []
  | fuel + 1, digest, tn, md, extra =>
    let subtypedefs := mergeDefs extra (parseSubs md)
    digest (joinLines (constLines md
      ++ fieldLines md
          (fun subtype =>
            calcHash fuel digest subtype (alGetD subtypedefs subtype []) subtypedefs)
          (pkgOf tn)))

/-- Two lines differing only in a comment, in the sense of the code's own
stripping: equal once comments are stripped, neither a subtype separator,
neither a `MSG:` header. -/
def lineRel (l l2 : List Char) : Prop :=
  stripComment l = stripComment l2 ∧ isSepLine l = false ∧ isSepLine l2 = false ∧
  msgHeadOf l = none ∧ msgHeadOf l2 = none

/-- The C5 counterexample schema: a root field, a subtype separator, one
subtype. -/
def c5t1 : List (List Char) := ["int8 a", "=====", "MSG: p/S", "int8 b"].map String.data

/-- The same schema with a comment appended to the separator line. -/
def c5t2 : List (List Char) := ["int8 a", "=====#c", "MSG: p/S", "int8 b"].map String.data

/-- The shared tail of the C5 witness schemas. -/
def c5rest : List (List Char) := ["=====", "MSG: p/S", "int8 b"].map String.data

/-! ### Helper lemmas about the ordered-dictionary model -/

theorem alGet_alSet_self [DecidableEq κ] (d : List (κ × α)) (k : κ) (v : α) :
    alGet (alSet d k v) k = some v := by
  induction d with
  | nil => simp [alSet, alGet]
  | cons p rest ih =>
    obtain ⟨k', v'⟩ := p
    by_cases h : k' = k
    · simp [alSet, alGet, h]
    · simp [alSet, alGet, h, ih]

theorem alGet_alSet_other [DecidableEq κ] (d : List (κ × α)) (k k2 : κ) (v : α)
    (h : k ≠ k2) : alGet (alSet d k v) k2 = alGet d k2 := by
  induction d with
  | nil => simp [alSet, alGet, h]
  | cons p rest ih =>
    obtain ⟨k', v'⟩ := p
    by_cases h' : k' = k
    · subst h'; simp [alSet, alGet, h]
    · simp [alSet, alGet, h', ih]

theorem alGetD_alUpd_self [DecidableEq κ] (dflt d2 : α) (f : α → α) (d : List (κ × α))
    (k : κ) : alGetD (alUpd dflt f d k) k d2 = f (alGetD d k dflt) := by
  simp [alUpd, alGetD, alGet_alSet_self]

theorem alGetD_alUpd_other [DecidableEq κ] (dflt d2 : α) (f : α → α) (d : List (κ × α))
    (k k2 : κ) (h : k ≠ k2) : alGetD (alUpd dflt f d k) k2 d2 = alGetD d k2 d2 := by
  simp [alUpd, alGetD, alGet_alSet_other _ _ _ _ h]

/-! ### Helper lemmas about window suffixes -/

theorem lastN_append_one (n : Nat) (l : List α) (a : α) :
    lastN (n + 1) (l ++ [a]) = lastN n l ++ [a] := by
  simp only [lastN, List.length_append, List.length_cons, List.length_nil]
  have h : l.length + 1 - (n + 1) = l.length - n := by omega
  rw [h, List.drop_append_of_le_length (by omega)]

theorem lastN_one_drop (j : Nat) (l : List α) (h : j < l.length) :
    lastN 1 (l.drop j) = lastN 1 l := by
  simp only [lastN, List.length_drop]
  rw [List.drop_drop]
  congr 1
  omega

theorem mem_lastN_of_mem_drop {a : α} {n j : Nat} {l : List α}
    (h : a ∈ lastN n (l.drop j)) : a ∈ l := by
  have h1 : a ∈ l.drop j := List.mem_of_mem_drop h
  exact List.mem_of_mem_drop h1

/-! ### Quota-free runs never stop early -/

theorem isMaxDone_quota0 (args : SearchArgs) (srcTopics : List (TopicKey × Option Nat))
    (st : SState) (h1 : args.MAX_MATCHES = 0) (h2 : args.MAX_TOPIC_MATCHES = 0) :
    isMaxDone args srcTopics st = false := by
  simp [isMaxDone, h1, h2]

/-- C1 counterexample.  With `before=2, after=1`, a single-channel batch of six
records whose fifth record is the only match, the sink receives the records at
positions 3 and 4 as context, position 5 as the match — but the position-6
record is emitted as trailing context with index argument `5`, not with its
own position `6` as the claim requires (`_emit_context` computes
`current_index + i - 1` for after-context, which equals the candidate's
position only when `AFTER == 2`). -/
theorem c1_after_context_index_counterexample :
    (searchRun 2 c1args [] alwaysProc
        (fun m => if m.mid = 5 then some m else none)
        [⟨1, ("t", "T", "h"), 101, ⟨1, 0⟩, 0⟩,
         ⟨1, ("t", "T", "h"), 102, ⟨2, 0⟩, 0⟩,
         ⟨1, ("t", "T", "h"), 103, ⟨3, 0⟩, 0⟩,
         ⟨1, ("t", "T", "h"), 104, ⟨4, 0⟩, 0⟩,
         ⟨1, ("t", "T", "h"), 105, ⟨5, 0⟩, 0⟩,
         ⟨1, ("t", "T", "h"), 106, ⟨6, 0⟩, 0⟩]).events =
      [SinkEvent.emitMeta,
       SinkEvent.emit "t" 3 103 ⟨3, 0⟩ none,
       SinkEvent.emit "t" 4 104 ⟨4, 0⟩ none,
       SinkEvent.emit "t" 5 105 ⟨5, 0⟩ (some ⟨5, 0⟩),
       SinkEvent.emit "t" 5 106 ⟨6, 0⟩ none] ∧
    (searchRun 2 c1args [] alwaysProc
        (fun m => if m.mid = 5 then some m else none)
        [⟨1, ("t", "T", "h"), 101, ⟨1, 0⟩, 0⟩,
         ⟨1, ("t", "T", "h"), 102, ⟨2, 0⟩, 0⟩,
         ⟨1, ("t", "T", "h"), 103, ⟨3, 0⟩, 0⟩,
         ⟨1, ("t", "T", "h"), 104, ⟨4, 0⟩, 0⟩,
         ⟨1, ("t", "T", "h"), 105, ⟨5, 0⟩, 0⟩,
         ⟨1, ("t", "T", "h"), 106, ⟨6, 0⟩, 0⟩]).events ≠
      [SinkEvent.emitMeta,
       SinkEvent.emit "t" 3 103 ⟨3, 0⟩ none,
       SinkEvent.emit "t" 4 104 ⟨4, 0⟩ none,
       SinkEvent.emit "t" 5 105 ⟨5, 0⟩ (some ⟨5, 0⟩),
       SinkEvent.emit "t" 6 106 ⟨6, 0⟩ none] := by
  constructor
  · decide
  · decide



/-- The after-context check fails when the latest status in the window is not
a match. -/
theorem hasInWindowF_after_false (sts : List (Nat × Option Bool)) (msgid : Nat)
    (hlast : ¬ some true ∈ lastN 1 (sts.map Prod.snd)) :
    hasInWindowF (sts ++ [(msgid, none)]) 2 (some true) false = false := by
  simp only [hasInWindowF, List.map_append, List.map_cons, List.map_nil]
  rw [lastN_append_one 1 (sts.map Prod.snd) none]
  simp [hlast]

/-- Appending a pending entry and pruning leaves a non-match as the latest
window status. -/
theorem lastN_one_prune_append (sts : List (Nat × Option Bool)) (msgid : Nat) (W : Nat)
    (hW : 0 < W) :
    ¬ some true ∈ lastN 1
      (((sts ++ [(msgid, none)]).drop ((sts ++ [(msgid, none)]).length - W)).map Prod.snd) := by
  rw [List.map_drop]
  have hlen : (sts ++ [(msgid, none)]).length - W <
      ((sts ++ [(msgid, none)]).map Prod.snd).length := by
    simp only [List.length_map, List.length_append, List.length_cons, List.length_nil]
    omega
  rw [lastN_one_drop _ _ hlen]
  rw [List.map_append]
  simp only [List.map_cons, List.map_nil]
  rw [show (1 : Nat) = 0 + 1 from rfl, lastN_append_one 0 (sts.map Prod.snd) none]
  have hnil : (List.map Prod.snd sts).drop sts.length = [] :=
    List.drop_eq_nil_of_le (by simp)
  simp [lastN, hnil]

/-- In the C1 configuration a non-matching record, arriving in a channel whose
latest window entry is not a match, produces no sink events and preserves that
property along with the batch bookkeeping. -/
theorem c1_quiet_step (lifetime : Int) (srcTopics : List (TopicKey × Option Nat))
    (matchFn : SMsg → Option SMsg) (b : Nat) (k : TopicKey) (st : SState) (r : SRec)
    (hskip : st.skipBatch = none) (hbatch : st.batch = some b)
    (hlast : ¬ some true ∈ lastN 1 ((alGetD st.statuses k []).map Prod.snd))
    (hrb : r.batch = b) (hrk : r.key = k) (hm : matchFn r.msg = none) :
    (searchStep lifetime c1args srcTopics alwaysProc matchFn st r).events = st.events ∧
    (searchStep lifetime c1args srcTopics alwaysProc matchFn st r).skipBatch = none ∧
    (searchStep lifetime c1args srcTopics alwaysProc matchFn st r).batch = some b ∧
    ¬ some true ∈ lastN 1
      ((alGetD (searchStep lifetime c1args srcTopics alwaysProc matchFn st r).statuses k []).map
        Prod.snd) := by
  subst hrk hrb
  have hwin : hasInWindowF
      (alGetD (alUpd [] (fun l => l ++ [(st.counter + 1, none)]) st.statuses r.key) r.key [])
      (c1args.AFTER + 1) (some true) false = false := by
    rw [alGetD_alUpd_self]
    exact hasInWindowF_after_false (alGetD st.statuses r.key []) (st.counter + 1) hlast
  have hmax : ∀ st2 : SState, isMaxDone c1args srcTopics st2 = false := fun st2 =>
    isMaxDone_quota0 c1args srcTopics st2 rfl rfl
  simp only [searchStep, stepBoundary, stepRegister, stepMatch, stepFinish, hbatch, hm, hwin, hmax, ite_self, pruneData, clearData,
    ne_self_iff_false, if_false, Option.isSome_none, Bool.false_eq_true, false_and,
    and_false, if_false, Bool.or_false]
  refine ⟨trivial, hskip, trivial, ?_⟩
  rw [alGetD_alUpd_self, alGetD_alUpd_self]
  exact lastN_one_prune_append (alGetD st.statuses r.key []) (st.counter + 1)
    (max c1args.BEFORE c1args.AFTER + 1) (by simp [c1args])

/-- A quiet tail: once the channel's latest window entry is not a match, a run
of non-matching records emits nothing further. -/
theorem c1_quiet_tail (lifetime : Int) (srcTopics : List (TopicKey × Option Nat))
    (matchFn : SMsg → Option SMsg) (b : Nat) (k : TopicKey) :
    ∀ (rest : List SRec) (st : SState),
      st.skipBatch = none → st.batch = some b →
      ¬ some true ∈ lastN 1 ((alGetD st.statuses k []).map Prod.snd) →
      (∀ r ∈ rest, r.batch = b ∧ r.key = k ∧ matchFn r.msg = none) →
      (searchFold lifetime c1args srcTopics alwaysProc matchFn st rest).events = st.events := by
  intro rest
  induction rest with
  | nil =>
    intro st _ _ _ _
    rfl
  | cons r rest ih =>
    intro st hskip hbatch hlast hr
    obtain ⟨hrb, hrk, hm⟩ := hr r (by simp)
    have hq := c1_quiet_step lifetime srcTopics matchFn b k st r hskip hbatch hlast hrb hrk hm
    have ih' := ih (searchStep lifetime c1args srcTopics alwaysProc matchFn st r)
      hq.2.1 hq.2.2.1 hq.2.2.2 (fun r' hr' => hr r' (List.mem_cons_of_mem r hr'))
    simp only [searchFold, List.foldl_cons] at ih' ⊢
    rw [if_neg (by simp [hskip])]
    rw [ih', hq.1]

/-- Unrolling one record of the search loop when the previous step has not
closed the batch. -/
theorem searchFold_cons_of_skip (lifetime : Int) (args : SearchArgs)
    (srcTopics : List (TopicKey × Option Nat))
    (srcProc : String → Nat → Int → SMsg → Bool) (matchFn : SMsg → Option SMsg)
    (st : SState) (r : SRec) (rs : List SRec) (h : st.skipBatch = none) :
    searchFold lifetime args srcTopics srcProc matchFn st (r :: rs) =
      searchFold lifetime args srcTopics srcProc matchFn
        (searchStep lifetime args srcTopics srcProc matchFn st r) rs := by
  simp only [searchFold, List.foldl_cons]
  rw [if_neg (by simp [h])]


set_option maxHeartbeats 2000000 in
/-- C1 (amended).  With `before=2, after=1` and no quotas, a single-channel
batch whose only match is the record at per-channel position 5 makes the sink
receive exactly: meta, the records at positions 3 and 4 as context carrying
their own positions as index, the record at position 5 as the match carrying
its position, and — when a position-6 record exists — that record as trailing
context carrying index `5` (one less than its position, as `_emit_context`
computes for after-context), with no further emissions. -/
theorem c1_context_emission_amended (lifetime : Int)
    (srcTopics : List (TopicKey × Option Nat)) (matchFn : SMsg → Option SMsg)
    (b : Nat) (k : TopicKey) (mm : SMsg) (r1 r2 r3 r4 r5 : SRec) (rest : List SRec)
    (hall : ∀ r ∈ r1 :: r2 :: r3 :: r4 :: r5 :: rest, r.batch = b ∧ r.key = k)
    (h1 : matchFn r1.msg = none) (h2 : matchFn r2.msg = none) (h3 : matchFn r3.msg = none)
    (h4 : matchFn r4.msg = none) (h5 : matchFn r5.msg = some mm)
    (hrest : ∀ r ∈ rest, matchFn r.msg = none) :
    (searchRun lifetime c1args srcTopics alwaysProc matchFn
        (r1 :: r2 :: r3 :: r4 :: r5 :: rest)).events =
      [SinkEvent.emitMeta,
       SinkEvent.emit k.1 3 r3.stamp r3.msg none,
       SinkEvent.emit k.1 4 r4.stamp r4.msg none,
       SinkEvent.emit k.1 5 r5.stamp r5.msg (some mm)] ++
      (match rest with
       | [] => []
       | r6 :: _ => [SinkEvent.emit k.1 5 r6.stamp r6.msg none]) := by
  obtain ⟨hb1, hk1⟩ := hall r1 (by simp)
  obtain ⟨hb2, hk2⟩ := hall r2 (by simp)
  obtain ⟨hb3, hk3⟩ := hall r3 (by simp)
  obtain ⟨hb4, hk4⟩ := hall r4 (by simp)
  obtain ⟨hb5, hk5⟩ := hall r5 (by simp)
  have hrestc : ∀ r ∈ rest, r.batch = b ∧ r.key = k ∧ matchFn r.msg = none := by
    intro r hr
    exact ⟨(hall r (by simp [hr])).1, (hall r (by simp [hr])).2, hrest r hr⟩
  set s1 := searchStep lifetime c1args srcTopics alwaysProc matchFn searchInit r1 with hs1
  obtain ⟨a1c, a1b, a1sk, a1cnt, a1m, a1s, a1st, a1e⟩ :
      s1.counter = 1 ∧ s1.batch = some b ∧ s1.skipBatch = none ∧
      s1.counts = [(k, ⟨1, 0, 0⟩)] ∧ s1.messages = [(k, [(1, r1.msg)])] ∧
      s1.stamps = [(k, [(1, r1.stamp)])] ∧ s1.statuses = [(k, [(1, none)])] ∧
      s1.events = [] := by
    refine ⟨?_, ?_, ?_, ?_, ?_, ?_, ?_, ?_⟩ <;>
      simp [hs1, searchStep, stepBoundary, stepRegister, stepMatch, stepFinish, searchInit, emitContext, emitContextOne, isProcessableS,
        hasInWindowF, pruneData, clearData, isMaxDone, alwaysProc, c1args, alUpd, alSet,
        alGet, alGetD, lastN, sumTrues, Cnt.zero, hb1, hk1, h1]
  set s2 := searchStep lifetime c1args srcTopics alwaysProc matchFn s1 r2 with hs2
  obtain ⟨a2c, a2b, a2sk, a2cnt, a2m, a2s, a2st, a2e⟩ :
      s2.counter = 2 ∧ s2.batch = some b ∧ s2.skipBatch = none ∧
      s2.counts = [(k, ⟨2, 0, 0⟩)] ∧ s2.messages = [(k, [(1, r1.msg), (2, r2.msg)])] ∧
      s2.stamps = [(k, [(1, r1.stamp), (2, r2.stamp)])] ∧
      s2.statuses = [(k, [(1, none), (2, none)])] ∧ s2.events = [] := by
    refine ⟨?_, ?_, ?_, ?_, ?_, ?_, ?_, ?_⟩ <;>
      simp [hs2, searchStep, stepBoundary, stepRegister, stepMatch, stepFinish, emitContext, emitContextOne, isProcessableS,
        hasInWindowF, pruneData, clearData, isMaxDone, alwaysProc, c1args, alUpd, alSet,
        alGet, alGetD, lastN, sumTrues, Cnt.zero, hb2, hk2, h2,
        a1c, a1b, a1sk, a1cnt, a1m, a1s, a1st, a1e]
  set s3 := searchStep lifetime c1args srcTopics alwaysProc matchFn s2 r3 with hs3
  obtain ⟨a3c, a3b, a3sk, a3cnt, a3m, a3s, a3st, a3e⟩ :
      s3.counter = 3 ∧ s3.batch = some b ∧ s3.skipBatch = none ∧
      s3.counts = [(k, ⟨3, 0, 0⟩)] ∧
      s3.messages = [(k, [(1, r1.msg), (2, r2.msg), (3, r3.msg)])] ∧
      s3.stamps = [(k, [(1, r1.stamp), (2, r2.stamp), (3, r3.stamp)])] ∧
      s3.statuses = [(k, [(1, none), (2, none), (3, none)])] ∧ s3.events = [] := by
    refine ⟨?_, ?_, ?_, ?_, ?_, ?_, ?_, ?_⟩ <;>
      simp [hs3, searchStep, stepBoundary, stepRegister, stepMatch, stepFinish, emitContext, emitContextOne, isProcessableS,
        hasInWindowF, pruneData, clearData, isMaxDone, alwaysProc, c1args, alUpd, alSet,
        alGet, alGetD, lastN, sumTrues, Cnt.zero, hb3, hk3, h3,
        a2c, a2b, a2sk, a2cnt, a2m, a2s, a2st, a2e]
  set s4 := searchStep lifetime c1args srcTopics alwaysProc matchFn s3 r4 with hs4
  obtain ⟨a4c, a4b, a4sk, a4cnt, a4m, a4s, a4st, a4e⟩ :
      s4.counter = 4 ∧ s4.batch = some b ∧ s4.skipBatch = none ∧
      s4.counts = [(k, ⟨4, 0, 0⟩)] ∧
      s4.messages = [(k, [(2, r2.msg), (3, r3.msg), (4, r4.msg)])] ∧
      s4.stamps = [(k, [(2, r2.stamp), (3, r3.stamp), (4, r4.stamp)])] ∧
      s4.statuses = [(k, [(2, none), (3, none), (4, none)])] ∧ s4.events = [] := by
    refine ⟨?_, ?_, ?_, ?_, ?_, ?_, ?_, ?_⟩ <;>
      simp [hs4, searchStep, stepBoundary, stepRegister, stepMatch, stepFinish, emitContext, emitContextOne, isProcessableS,
        hasInWindowF, pruneData, clearData, isMaxDone, alwaysProc, c1args, alUpd, alSet,
        alGet, alGetD, lastN, sumTrues, Cnt.zero, hb4, hk4, h4,
        a3c, a3b, a3sk, a3cnt, a3m, a3s, a3st, a3e]
  set s5 := searchStep lifetime c1args srcTopics alwaysProc matchFn s4 r5 with hs5
  obtain ⟨a5c, a5b, a5sk, a5cnt, a5m, a5s, a5st, a5e⟩ :
      s5.counter = 5 ∧ s5.batch = some b ∧ s5.skipBatch = none ∧
      s5.counts = [(k, ⟨5, 1, 2⟩)] ∧
      s5.messages = [(k, [(3, r3.msg), (4, r4.msg), (5, r5.msg)])] ∧
      s5.stamps = [(k, [(3, r3.stamp), (4, r4.stamp), (5, r5.stamp)])] ∧
      s5.statuses = [(k, [(3, some false), (4, some false), (5, some true)])] ∧
      s5.events =
        [SinkEvent.emitMeta,
         SinkEvent.emit k.1 3 r3.stamp r3.msg none,
         SinkEvent.emit k.1 4 r4.stamp r4.msg none,
         SinkEvent.emit k.1 5 r5.stamp r5.msg (some mm)] := by
    refine ⟨?_, ?_, ?_, ?_, ?_, ?_, ?_, ?_⟩ <;>
      simp [hs5, searchStep, stepBoundary, stepRegister, stepMatch, stepFinish, emitContext, emitContextOne, isProcessableS,
        hasInWindowF, pruneData, clearData, isMaxDone, alwaysProc, c1args, alUpd, alSet,
        alGet, alGetD, lastN, sumTrues, Cnt.zero, hb5, hk5, h5,
        a4c, a4b, a4sk, a4cnt, a4m, a4s, a4st, a4e, List.enum]
  simp only [searchRun]
  rw [searchFold_cons_of_skip lifetime c1args srcTopics alwaysProc matchFn searchInit r1 _ rfl,
    ← hs1]
  rw [searchFold_cons_of_skip lifetime c1args srcTopics alwaysProc matchFn s1 r2 _ a1sk, ← hs2]
  rw [searchFold_cons_of_skip lifetime c1args srcTopics alwaysProc matchFn s2 r3 _ a2sk, ← hs3]
  rw [searchFold_cons_of_skip lifetime c1args srcTopics alwaysProc matchFn s3 r4 _ a3sk, ← hs4]
  rw [searchFold_cons_of_skip lifetime c1args srcTopics alwaysProc matchFn s4 r5 _ a4sk, ← hs5]
  cases rest with
  | nil =>
    simp [searchFold, a5e]
  | cons r6 tail =>
    obtain ⟨hb6, hk6, hm6⟩ := hrestc r6 (by simp)
    rw [searchFold_cons_of_skip lifetime c1args srcTopics alwaysProc matchFn s5 r6 _ a5sk]
    set s6 := searchStep lifetime c1args srcTopics alwaysProc matchFn s5 r6 with hs6
    obtain ⟨a6sk, a6b, a6st, a6e⟩ :
        s6.skipBatch = none ∧ s6.batch = some b ∧
        s6.statuses = [(k, [(4, some false), (5, some true), (6, some false)])] ∧
        s6.events =
          [SinkEvent.emitMeta,
           SinkEvent.emit k.1 3 r3.stamp r3.msg none,
           SinkEvent.emit k.1 4 r4.stamp r4.msg none,
           SinkEvent.emit k.1 5 r5.stamp r5.msg (some mm),
           SinkEvent.emit k.1 5 r6.stamp r6.msg none] := by
      refine ⟨?_, ?_, ?_, ?_⟩ <;>
        simp [hs6, searchStep, stepBoundary, stepRegister, stepMatch, stepFinish, emitContext, emitContextOne, isProcessableS,
          hasInWindowF, pruneData, clearData, isMaxDone, alwaysProc, c1args, alUpd, alSet,
          alGet, alGetD, lastN, sumTrues, Cnt.zero, hb6, hk6, hm6,
          a5c, a5b, a5sk, a5cnt, a5m, a5s, a5st, a5e, List.enum]
    have htail := c1_quiet_tail lifetime srcTopics matchFn b k tail s6 a6sk a6b
      (by simp [a6st, alGetD, alGet, lastN])
      (fun r' hr' => hrestc r' (List.mem_cons_of_mem r6 hr'))
    rw [htail, a6e]
    simp

/-- Witness for the amended C1 theorem at a concrete six-record stream. -/
theorem c1_context_emission_witness :
    (searchRun 7 c1args [] alwaysProc (fun m => if m.mid = 5 then some ⟨5, 7⟩ else none)
        [⟨1, ("t", "T", "h"), 101, ⟨1, 0⟩, 0⟩,
         ⟨1, ("t", "T", "h"), 102, ⟨2, 0⟩, 0⟩,
         ⟨1, ("t", "T", "h"), 103, ⟨3, 0⟩, 0⟩,
         ⟨1, ("t", "T", "h"), 104, ⟨4, 0⟩, 0⟩,
         ⟨1, ("t", "T", "h"), 105, ⟨5, 0⟩, 0⟩,
         ⟨1, ("t", "T", "h"), 106, ⟨6, 0⟩, 0⟩]).events =
      [SinkEvent.emitMeta,
       SinkEvent.emit "t" 3 103 ⟨3, 0⟩ none,
       SinkEvent.emit "t" 4 104 ⟨4, 0⟩ none,
       SinkEvent.emit "t" 5 105 ⟨5, 0⟩ (some ⟨5, 7⟩),
       SinkEvent.emit "t" 5 106 ⟨6, 0⟩ none] :=
  c1_context_emission_amended 7 [] (fun m => if m.mid = 5 then some ⟨5, 7⟩ else none)
    1 ("t", "T", "h") ⟨5, 7⟩
    ⟨1, ("t", "T", "h"), 101, ⟨1, 0⟩, 0⟩
    ⟨1, ("t", "T", "h"), 102, ⟨2, 0⟩, 0⟩
    ⟨1, ("t", "T", "h"), 103, ⟨3, 0⟩, 0⟩
    ⟨1, ("t", "T", "h"), 104, ⟨4, 0⟩, 0⟩
    ⟨1, ("t", "T", "h"), 105, ⟨5, 0⟩, 0⟩
    [⟨1, ("t", "T", "h"), 106, ⟨6, 0⟩, 0⟩]
    (by decide) (by decide) (by decide) (by decide) (by decide) (by decide) (by decide)

/-- The reference accountant counts every match, emitted or suppressed. -/
theorem nthStep_count (k : TopicKey) (matchFn : SMsg → Option SMsg) (N : Nat) :
    ∀ (rs : List SRec) (c t : Nat) (ev : List SinkEvent),
      (rs.foldl (nthStep k matchFn N) (c, t, ev)).2.1
        = t + (rs.filter fun r => (matchFn r.msg).isSome).length := by
  intro rs
  induction rs with
  | nil => intro c t ev; simp
  | cons r rest ih =>
    intro c t ev
    by_cases hm : (matchFn r.msg).isSome
    · by_cases ht : t % N = 0 <;>
        simp [nthStep, hm, ht, List.foldl_cons, ih, List.filter_cons] <;> omega
    · simp [nthStep, hm, List.foldl_cons, ih, List.filter_cons]

/-- The reference accountant emits exactly the matches at ordinals divisible
by `N`. -/
theorem nthStep_emits (k : TopicKey) (matchFn : SMsg → Option SMsg) (N : Nat) :
    ∀ (rs : List SRec) (c t : Nat) (ev : List SinkEvent),
      matchEmitCount (rs.foldl (nthStep k matchFn N) (c, t, ev)).2.2
        = matchEmitCount ev +
          ((List.range' t (rs.filter fun r => (matchFn r.msg).isSome).length).filter
            fun j => j % N = 0).length := by
  intro rs
  induction rs with
  | nil => intro c t ev; simp
  | cons r rest ih =>
    intro c t ev
    cases hm : matchFn r.msg with
    | none => simp [nthStep, hm, List.foldl_cons, ih, List.filter_cons]
    | some m =>
      by_cases ht : t % N = 0
      · simp only [List.foldl_cons, nthStep, hm, ht, Option.isSome_some, if_true, if_pos]
        rw [ih]
        simp [matchEmitCount, List.filter_append, List.filter_cons, hm, ht, List.range'_succ]
        omega
      · simp only [List.foldl_cons, nthStep, hm, ht, Option.isSome_some, if_true, if_neg]
        rw [ih]
        simp [matchEmitCount, List.filter_append, List.filter_cons, hm, ht, List.range'_succ]

set_option maxHeartbeats 2000000 in
/-- With `before=after=0` and no quotas, the search loop over a single channel
agrees with the reference Nth-match accountant from any aligned state. -/
theorem c2_fold (lifetime : Int) (srcTopics : List (TopicKey × Option Nat))
    (matchFn : SMsg → Option SMsg) (b : Nat) (k : TopicKey) (N : Nat) :
    ∀ (rs : List SRec) (st : SState) (c t : Nat) (ev : List SinkEvent)
      (lastst : Option Bool),
      st.counter = c → st.batch = some b → st.skipBatch = none →
      st.counts = [(k, ⟨c, t, 0⟩)] → st.statuses = [(k, [(c, lastst)])] →
      st.events = ev → N ≠ 0 →
      (∀ r ∈ rs, r.batch = b ∧ r.key = k) →
      ((searchFold lifetime ⟨0, 0, 0, 0, 0, N⟩ srcTopics alwaysProc matchFn st rs).counter
          = (rs.foldl (nthStep k matchFn N) (c, t, ev)).1 ∧
        (searchFold lifetime ⟨0, 0, 0, 0, 0, N⟩ srcTopics alwaysProc matchFn st rs).batch
          = some b ∧
        (searchFold lifetime ⟨0, 0, 0, 0, 0, N⟩ srcTopics alwaysProc matchFn st rs).skipBatch
          = none ∧
        (searchFold lifetime ⟨0, 0, 0, 0, 0, N⟩ srcTopics alwaysProc matchFn st rs).counts
          = [(k, ⟨(rs.foldl (nthStep k matchFn N) (c, t, ev)).1,
                 (rs.foldl (nthStep k matchFn N) (c, t, ev)).2.1, 0⟩)] ∧
        (∃ l, (searchFold lifetime ⟨0, 0, 0, 0, 0, N⟩ srcTopics alwaysProc matchFn st rs).statuses
          = [(k, [((rs.foldl (nthStep k matchFn N) (c, t, ev)).1, l)])]) ∧
        (searchFold lifetime ⟨0, 0, 0, 0, 0, N⟩ srcTopics alwaysProc matchFn st rs).events
          = (rs.foldl (nthStep k matchFn N) (c, t, ev)).2.2) := by
  intro rs
  induction rs with
  | nil =>
    intro st c t ev lastst hc hb hsk hcnt hst hev hN hall
    simp only [searchFold, List.foldl_nil]
    exact ⟨hc, hb, hsk, by rw [hcnt], ⟨lastst, by rw [hst]⟩, hev⟩
  | cons r rest ih =>
    intro st c t ev lastst hc hb hsk hcnt hst hev hN hall
    obtain ⟨hrb, hrk⟩ := hall r (by simp)
    rw [searchFold_cons_of_skip lifetime ⟨0, 0, 0, 0, 0, N⟩ srcTopics alwaysProc matchFn
      st r rest hsk]
    rw [List.foldl_cons]
    cases hm : matchFn r.msg with
    | none =>
      obtain ⟨bc, bb, bsk, bcnt, bst, bev⟩ :
          (searchStep lifetime ⟨0, 0, 0, 0, 0, N⟩ srcTopics alwaysProc matchFn st r).counter
              = c + 1 ∧
          (searchStep lifetime ⟨0, 0, 0, 0, 0, N⟩ srcTopics alwaysProc matchFn st r).batch
              = some b ∧
          (searchStep lifetime ⟨0, 0, 0, 0, 0, N⟩ srcTopics alwaysProc matchFn st r).skipBatch
              = none ∧
          (searchStep lifetime ⟨0, 0, 0, 0, 0, N⟩ srcTopics alwaysProc matchFn st r).counts
              = [(k, ⟨c + 1, t, 0⟩)] ∧
          (searchStep lifetime ⟨0, 0, 0, 0, 0, N⟩ srcTopics alwaysProc matchFn st r).statuses
              = [(k, [(c + 1, none)])] ∧
          (searchStep lifetime ⟨0, 0, 0, 0, 0, N⟩ srcTopics alwaysProc matchFn st r).events
              = ev := by
        refine ⟨?_, ?_, ?_, ?_, ?_, ?_⟩ <;>
          simp [searchStep, stepBoundary, stepRegister, stepMatch, stepFinish, emitContext, emitContextOne, isProcessableS, hasInWindowF,
            pruneData, clearData, isMaxDone, alwaysProc, alUpd, alSet, alGet, alGetD, lastN,
            sumTrues, Cnt.zero, hc, hb, hsk, hcnt, hst, hev, hm, hrb, hrk]
      have := ih (searchStep lifetime ⟨0, 0, 0, 0, 0, N⟩ srcTopics alwaysProc matchFn st r)
        (c + 1) t ev none bc bb bsk bcnt bst bev hN
        (fun r' h' => hall r' (List.mem_cons_of_mem r h'))
      simpa [nthStep, hm] using this
    | some m =>
      by_cases ht : t % N = 0
      · obtain ⟨bc, bb, bsk, bcnt, bst, bev⟩ :
            (searchStep lifetime ⟨0, 0, 0, 0, 0, N⟩ srcTopics alwaysProc matchFn st r).counter
                = c + 1 ∧
            (searchStep lifetime ⟨0, 0, 0, 0, 0, N⟩ srcTopics alwaysProc matchFn st r).batch
                = some b ∧
            (searchStep lifetime ⟨0, 0, 0, 0, 0, N⟩ srcTopics alwaysProc matchFn st r).skipBatch
                = none ∧
            (searchStep lifetime ⟨0, 0, 0, 0, 0, N⟩ srcTopics alwaysProc matchFn st r).counts
                = [(k, ⟨c + 1, t + 1, 0⟩)] ∧
            (searchStep lifetime ⟨0, 0, 0, 0, 0, N⟩ srcTopics alwaysProc matchFn st r).statuses
                = [(k, [(c + 1, some true)])] ∧
            (searchStep lifetime ⟨0, 0, 0, 0, 0, N⟩ srcTopics alwaysProc matchFn st r).events
                = ev ++ [SinkEvent.emitMeta,
                    SinkEvent.emit k.1 ((c : Int) + 1) r.stamp r.msg (some m)] := by
          refine ⟨?_, ?_, ?_, ?_, ?_, ?_⟩ <;>
            simp [searchStep, stepBoundary, stepRegister, stepMatch, stepFinish, emitContext, emitContextOne, isProcessableS, hasInWindowF,
              pruneData, clearData, isMaxDone, alwaysProc, alUpd, alSet, alGet, alGetD, lastN,
              sumTrues, Cnt.zero, hc, hb, hsk, hcnt, hst, hev, hm, hrb, hrk, ht, hN, List.enum]
        have := ih (searchStep lifetime ⟨0, 0, 0, 0, 0, N⟩ srcTopics alwaysProc matchFn st r)
          (c + 1) (t + 1)
          (ev ++ [SinkEvent.emitMeta, SinkEvent.emit k.1 ((c : Int) + 1) r.stamp r.msg (some m)])
          (some true) bc bb bsk bcnt bst bev hN
          (fun r' h' => hall r' (List.mem_cons_of_mem r h'))
        simpa [nthStep, hm, ht] using this
      · obtain ⟨bc, bb, bsk, bcnt, bst, bev⟩ :
            (searchStep lifetime ⟨0, 0, 0, 0, 0, N⟩ srcTopics alwaysProc matchFn st r).counter
                = c + 1 ∧
            (searchStep lifetime ⟨0, 0, 0, 0, 0, N⟩ srcTopics alwaysProc matchFn st r).batch
                = some b ∧
            (searchStep lifetime ⟨0, 0, 0, 0, 0, N⟩ srcTopics alwaysProc matchFn st r).skipBatch
                = none ∧
            (searchStep lifetime ⟨0, 0, 0, 0, 0, N⟩ srcTopics alwaysProc matchFn st r).counts
                = [(k, ⟨c + 1, t + 1, 0⟩)] ∧
            (searchStep lifetime ⟨0, 0, 0, 0, 0, N⟩ srcTopics alwaysProc matchFn st r).statuses
                = [(k, [(c + 1, some true)])] ∧
            (searchStep lifetime ⟨0, 0, 0, 0, 0, N⟩ srcTopics alwaysProc matchFn st r).events
                = ev := by
          refine ⟨?_, ?_, ?_, ?_, ?_, ?_⟩ <;>
            simp [searchStep, stepBoundary, stepRegister, stepMatch, stepFinish, emitContext, emitContextOne, isProcessableS, hasInWindowF,
              pruneData, clearData, isMaxDone, alwaysProc, alUpd, alSet, alGet, alGetD, lastN,
              sumTrues, Cnt.zero, hc, hb, hsk, hcnt, hst, hev, hm, hrb, hrk, ht, hN, List.enum]
        have := ih (searchStep lifetime ⟨0, 0, 0, 0, 0, N⟩ srcTopics alwaysProc matchFn st r)
          (c + 1) (t + 1) ev (some true) bc bb bsk bcnt bst bev hN
          (fun r' h' => hall r' (List.mem_cons_of_mem r h'))
        simpa [nthStep, hm, ht] using this

set_option maxHeartbeats 2000000 in
/-- C2.  With `NTH_MATCH = N ≥ 1` and no quotas or context, a single-channel
batch produces: the sink-event trace of the reference decimation accountant
(every match at 0-based match ordinal divisible by `N` is emitted, the others
suppressed — so of every `N` consecutive matches exactly one is emitted, and
with `N = 2` every second one); a per-channel matched count equal to the
number of *all* matching records, decimated or not (the count the quota
checks read); and exactly `|{m < matches : m % N = 0}|` match emissions. -/
theorem c2_nth_match_decimation (lifetime : Int)
    (srcTopics : List (TopicKey × Option Nat)) (matchFn : SMsg → Option SMsg)
    (b : Nat) (k : TopicKey) (N : Nat) (rs : List SRec) (hN : 1 ≤ N)
    (hall : ∀ r ∈ rs, r.batch = b ∧ r.key = k) :
    (searchRun lifetime ⟨0, 0, 0, 0, 0, N⟩ srcTopics alwaysProc matchFn rs).events
        = (nthRef k matchFn N rs).2.2 ∧
    (alGetD (searchRun lifetime ⟨0, 0, 0, 0, 0, N⟩ srcTopics alwaysProc matchFn rs).counts
        k Cnt.zero).trues
        = (rs.filter fun r => (matchFn r.msg).isSome).length ∧
    matchEmitCount
        (searchRun lifetime ⟨0, 0, 0, 0, 0, N⟩ srcTopics alwaysProc matchFn rs).events
        = ((List.range (rs.filter fun r => (matchFn r.msg).isSome).length).filter
            fun j => j % N = 0).length := by
  have hN' : N ≠ 0 := by omega
  have main :
      (searchRun lifetime ⟨0, 0, 0, 0, 0, N⟩ srcTopics alwaysProc matchFn rs).events
          = (nthRef k matchFn N rs).2.2 ∧
      (searchRun lifetime ⟨0, 0, 0, 0, 0, N⟩ srcTopics alwaysProc matchFn rs).counts
          = [(k, ⟨(nthRef k matchFn N rs).1, (nthRef k matchFn N rs).2.1, 0⟩)] ∨
      rs = [] := by
    cases rs with
    | nil => exact Or.inr rfl
    | cons r1 rest =>
      refine Or.inl ?_
      obtain ⟨hrb, hrk⟩ := hall r1 (by simp)
      have hrest : ∀ r ∈ rest, r.batch = b ∧ r.key = k :=
        fun r h => hall r (List.mem_cons_of_mem _ h)
      cases hm : matchFn r1.msg with
      | none =>
        obtain ⟨bc, bb, bsk, bcnt, bst, bev⟩ :
            (searchStep lifetime ⟨0, 0, 0, 0, 0, N⟩ srcTopics alwaysProc matchFn
                searchInit r1).counter = 1 ∧
            (searchStep lifetime ⟨0, 0, 0, 0, 0, N⟩ srcTopics alwaysProc matchFn
                searchInit r1).batch = some b ∧
            (searchStep lifetime ⟨0, 0, 0, 0, 0, N⟩ srcTopics alwaysProc matchFn
                searchInit r1).skipBatch = none ∧
            (searchStep lifetime ⟨0, 0, 0, 0, 0, N⟩ srcTopics alwaysProc matchFn
                searchInit r1).counts = [(k, ⟨1, 0, 0⟩)] ∧
            (searchStep lifetime ⟨0, 0, 0, 0, 0, N⟩ srcTopics alwaysProc matchFn
                searchInit r1).statuses = [(k, [(1, none)])] ∧
            (searchStep lifetime ⟨0, 0, 0, 0, 0, N⟩ srcTopics alwaysProc matchFn
                searchInit r1).events = [] := by
          refine ⟨?_, ?_, ?_, ?_, ?_, ?_⟩ <;>
            simp [searchStep, stepBoundary, stepRegister, stepMatch, stepFinish, searchInit, emitContext, emitContextOne, isProcessableS,
              hasInWindowF, pruneData, clearData, isMaxDone, alwaysProc, alUpd, alSet, alGet,
              alGetD, lastN, sumTrues, Cnt.zero, hrb, hrk, hm, hN']
        have hf := c2_fold lifetime srcTopics matchFn b k N rest
          (searchStep lifetime ⟨0, 0, 0, 0, 0, N⟩ srcTopics alwaysProc matchFn searchInit r1)
          1 0 [] none bc bb bsk bcnt bst bev hN' hrest
        have hstart : (List.foldl (nthStep k matchFn N) (0, 0, []) (r1 :: rest))
            = (List.foldl (nthStep k matchFn N) (1, 0, []) rest) := by
          rw [List.foldl_cons]
          simp [nthStep, hm]
        simp only [searchRun]
        rw [searchFold_cons_of_skip lifetime ⟨0, 0, 0, 0, 0, N⟩ srcTopics alwaysProc matchFn
          searchInit r1 rest rfl]
        rw [nthRef, hstart]
        exact ⟨hf.2.2.2.2.2, hf.2.2.2.1⟩
      | some m =>
        obtain ⟨bc, bb, bsk, bcnt, bst, bev⟩ :
            (searchStep lifetime ⟨0, 0, 0, 0, 0, N⟩ srcTopics alwaysProc matchFn
                searchInit r1).counter = 1 ∧
            (searchStep lifetime ⟨0, 0, 0, 0, 0, N⟩ srcTopics alwaysProc matchFn
                searchInit r1).batch = some b ∧
            (searchStep lifetime ⟨0, 0, 0, 0, 0, N⟩ srcTopics alwaysProc matchFn
                searchInit r1).skipBatch = none ∧
            (searchStep lifetime ⟨0, 0, 0, 0, 0, N⟩ srcTopics alwaysProc matchFn
                searchInit r1).counts = [(k, ⟨1, 1, 0⟩)] ∧
            (searchStep lifetime ⟨0, 0, 0, 0, 0, N⟩ srcTopics alwaysProc matchFn
                searchInit r1).statuses = [(k, [(1, some true)])] ∧
            (searchStep lifetime ⟨0, 0, 0, 0, 0, N⟩ srcTopics alwaysProc matchFn
                searchInit r1).events
              = [SinkEvent.emitMeta, SinkEvent.emit k.1 1 r1.stamp r1.msg (some m)] := by
          refine ⟨?_, ?_, ?_, ?_, ?_, ?_⟩ <;>
            simp [searchStep, stepBoundary, stepRegister, stepMatch, stepFinish, searchInit, emitContext, emitContextOne, isProcessableS,
              hasInWindowF, pruneData, clearData, isMaxDone, alwaysProc, alUpd, alSet, alGet,
              alGetD, lastN, sumTrues, Cnt.zero, hrb, hrk, hm, hN', List.enum]
        have hf := c2_fold lifetime srcTopics matchFn b k N rest
          (searchStep lifetime ⟨0, 0, 0, 0, 0, N⟩ srcTopics alwaysProc matchFn searchInit r1)
          1 1 [SinkEvent.emitMeta, SinkEvent.emit k.1 1 r1.stamp r1.msg (some m)] (some true)
          bc bb bsk bcnt bst bev hN' hrest
        have hstart : (List.foldl (nthStep k matchFn N) (0, 0, []) (r1 :: rest))
            = (List.foldl (nthStep k matchFn N)
                (1, 1, [SinkEvent.emitMeta, SinkEvent.emit k.1 1 r1.stamp r1.msg (some m)])
                rest) := by
          rw [List.foldl_cons]
          simp [nthStep, hm]
        simp only [searchRun]
        rw [searchFold_cons_of_skip lifetime ⟨0, 0, 0, 0, 0, N⟩ srcTopics alwaysProc matchFn
          searchInit r1 rest rfl]
        rw [nthRef, hstart]
        exact ⟨hf.2.2.2.2.2, hf.2.2.2.1⟩
  rcases main with ⟨hev, hcnt⟩ | hnil
  · refine ⟨hev, ?_, ?_⟩
    · rw [hcnt]
      simp only [alGetD, alGet, if_pos rfl, Option.getD_some]
      have := nthStep_count k matchFn N rs 0 0 []
      simpa [nthRef] using this
    · rw [hev]
      have := nthStep_emits k matchFn N rs 0 0 []
      simp only [nthRef]
      rw [this]
      simp [matchEmitCount, List.range_eq_range']
  · subst hnil
    simp [searchRun, searchFold, nthRef, matchEmitCount, searchInit, alGetD, alGet, Cnt.zero]

/-- Witness for C2 at `nth_match = 2` over five matching records: every second
match is emitted (ordinals 1, 3, 5), yet all five matches are counted. -/
theorem c2_nth_match_decimation_witness :
    (searchRun 3 ⟨0, 0, 0, 0, 0, 2⟩ [] alwaysProc (fun m => some m)
        [⟨1, ("t", "T", "h"), 101, ⟨1, 0⟩, 0⟩,
         ⟨1, ("t", "T", "h"), 102, ⟨2, 0⟩, 0⟩,
         ⟨1, ("t", "T", "h"), 103, ⟨3, 0⟩, 0⟩,
         ⟨1, ("t", "T", "h"), 104, ⟨4, 0⟩, 0⟩,
         ⟨1, ("t", "T", "h"), 105, ⟨5, 0⟩, 0⟩]).events =
      [SinkEvent.emitMeta, SinkEvent.emit "t" 1 101 ⟨1, 0⟩ (some ⟨1, 0⟩),
       SinkEvent.emitMeta, SinkEvent.emit "t" 3 103 ⟨3, 0⟩ (some ⟨3, 0⟩),
       SinkEvent.emitMeta, SinkEvent.emit "t" 5 105 ⟨5, 0⟩ (some ⟨5, 0⟩)] ∧
    (alGetD (searchRun 3 ⟨0, 0, 0, 0, 0, 2⟩ [] alwaysProc (fun m => some m)
        [⟨1, ("t", "T", "h"), 101, ⟨1, 0⟩, 0⟩,
         ⟨1, ("t", "T", "h"), 102, ⟨2, 0⟩, 0⟩,
         ⟨1, ("t", "T", "h"), 103, ⟨3, 0⟩, 0⟩,
         ⟨1, ("t", "T", "h"), 104, ⟨4, 0⟩, 0⟩,
         ⟨1, ("t", "T", "h"), 105, ⟨5, 0⟩, 0⟩]).counts ("t", "T", "h") Cnt.zero).trues = 5 := by
  obtain ⟨h1, h2, h3⟩ := c2_nth_match_decimation 3 [] (fun m => some m) 1 ("t", "T", "h") 2
    [⟨1, ("t", "T", "h"), 101, ⟨1, 0⟩, 0⟩,
     ⟨1, ("t", "T", "h"), 102, ⟨2, 0⟩, 0⟩,
     ⟨1, ("t", "T", "h"), 103, ⟨3, 0⟩, 0⟩,
     ⟨1, ("t", "T", "h"), 104, ⟨4, 0⟩, 0⟩,
     ⟨1, ("t", "T", "h"), 105, ⟨5, 0⟩, 0⟩] (by decide) (by decide)
  exact ⟨h1.trans (by decide), h2.trans (by decide)⟩

set_option maxHeartbeats 4000000 in
/-- With no quotas and no context, the search loop's matched accounting over a
single channel agrees with the reference matched-record counter from any
aligned state, across batch boundaries, and the match emissions never exceed
the matched count. -/
theorem c10_fold (lifetime : Int) (srcTopics : List (TopicKey × Option Nat))
    (srcProc : String → Nat → Int → SMsg → Bool) (matchFn : SMsg → Option SMsg)
    (k : TopicKey) (N : Nat) :
    ∀ (rs : List SRec) (st : SState) (curB : Nat) (c t T : Nat) (lastst : Option Bool),
      st.counter = c → st.batch = some curB → st.skipBatch = none →
      st.totalMatched = T → st.counts = [(k, ⟨c, t, 0⟩)] →
      st.statuses = [(k, [(c, lastst)])] →
      matchEmitCount st.events ≤ T + t →
      (∀ r ∈ rs, r.key = k) →
      ((searchFold lifetime ⟨0, 0, 0, 0, 0, N⟩ srcTopics srcProc matchFn st rs).totalMatched +
          sumTrues (searchFold lifetime ⟨0, 0, 0, 0, 0, N⟩ srcTopics srcProc matchFn
            st rs).counts
          = (rs.foldl (c10Step k srcProc matchFn) (some curB, c, T + t)).2.2 ∧
        matchEmitCount
            (searchFold lifetime ⟨0, 0, 0, 0, 0, N⟩ srcTopics srcProc matchFn st rs).events
          ≤ (rs.foldl (c10Step k srcProc matchFn) (some curB, c, T + t)).2.2) := by
  intro rs
  induction rs with
  | nil =>
    intro st curB c t T lastst hc hb hsk hT hcnt hst hE hall
    simp only [searchFold, List.foldl_nil]
    constructor
    · rw [hT, hcnt]
      simp [sumTrues]
    · exact hE
  | cons r rest ih =>
    intro st curB c t T lastst hc hb hsk hT hcnt hst hE hall
    have hrk : r.key = k := (hall r (by simp))
    have hrest : ∀ r' ∈ rest, r'.key = k := fun r' h => hall r' (List.mem_cons_of_mem _ h)
    rw [searchFold_cons_of_skip lifetime ⟨0, 0, 0, 0, 0, N⟩ srcTopics srcProc matchFn
      st r rest hsk]
    rw [List.foldl_cons]
    by_cases hbb : r.batch = curB
    · by_cases hp : srcProc k.1 (c + 1) r.stamp r.msg = true
      · cases hm : matchFn r.msg with
        | none =>
          obtain ⟨bc, bb, bsk, bT, bcnt, bst, bev⟩ :
              (searchStep lifetime ⟨0, 0, 0, 0, 0, N⟩ srcTopics srcProc matchFn st r).counter
                  = c + 1 ∧
              (searchStep lifetime ⟨0, 0, 0, 0, 0, N⟩ srcTopics srcProc matchFn st r).batch
                  = some curB ∧
              (searchStep lifetime ⟨0, 0, 0, 0, 0, N⟩ srcTopics srcProc matchFn st r).skipBatch
                  = none ∧
              (searchStep lifetime ⟨0, 0, 0, 0, 0, N⟩ srcTopics srcProc matchFn
                  st r).totalMatched = T ∧
              (searchStep lifetime ⟨0, 0, 0, 0, 0, N⟩ srcTopics srcProc matchFn st r).counts
                  = [(k, ⟨c + 1, t, 0⟩)] ∧
              (searchStep lifetime ⟨0, 0, 0, 0, 0, N⟩ srcTopics srcProc matchFn st r).statuses
                  = [(k, [(c + 1, none)])] ∧
              (searchStep lifetime ⟨0, 0, 0, 0, 0, N⟩ srcTopics srcProc matchFn st r).events
                  = st.events := by
            refine ⟨?_, ?_, ?_, ?_, ?_, ?_, ?_⟩ <;>
              simp [searchStep, stepBoundary, stepRegister, stepMatch, stepFinish, emitContext, emitContextOne, isProcessableS, hasInWindowF,
                pruneData, clearData, isMaxDone, alUpd, alSet, alGet, alGetD, lastN,
                sumTrues, Cnt.zero, hc, hb, hsk, hT, hcnt, hst, hm, hp, hbb, hrk]
          have := ih (searchStep lifetime ⟨0, 0, 0, 0, 0, N⟩ srcTopics srcProc matchFn st r)
            curB (c + 1) t T none bc bb bsk bT bcnt bst (by rw [bev]; exact hE) hrest
          simpa [c10Step, hbb, hp, hm, hrk] using this
        | some m =>
          by_cases ht : t % (if N = 0 then 1 else N) = 0
          · obtain ⟨bc, bb, bsk, bT, bcnt, bst, bev⟩ :
                (searchStep lifetime ⟨0, 0, 0, 0, 0, N⟩ srcTopics srcProc matchFn st r).counter
                    = c + 1 ∧
                (searchStep lifetime ⟨0, 0, 0, 0, 0, N⟩ srcTopics srcProc matchFn st r).batch
                    = some curB ∧
                (searchStep lifetime ⟨0, 0, 0, 0, 0, N⟩ srcTopics srcProc matchFn
                    st r).skipBatch = none ∧
                (searchStep lifetime ⟨0, 0, 0, 0, 0, N⟩ srcTopics srcProc matchFn
                    st r).totalMatched = T ∧
                (searchStep lifetime ⟨0, 0, 0, 0, 0, N⟩ srcTopics srcProc matchFn st r).counts
                    = [(k, ⟨c + 1, t + 1, 0⟩)] ∧
                (searchStep lifetime ⟨0, 0, 0, 0, 0, N⟩ srcTopics srcProc matchFn
                    st r).statuses = [(k, [(c + 1, some true)])] ∧
                (searchStep lifetime ⟨0, 0, 0, 0, 0, N⟩ srcTopics srcProc matchFn st r).events
                    = st.events ++ [SinkEvent.emitMeta,
                        SinkEvent.emit k.1 ((c : Int) + 1) r.stamp r.msg (some m)] := by
              refine ⟨?_, ?_, ?_, ?_, ?_, ?_, ?_⟩ <;>
                simp [searchStep, stepBoundary, stepRegister, stepMatch, stepFinish, emitContext, emitContextOne, isProcessableS, hasInWindowF,
                  pruneData, clearData, isMaxDone, alUpd, alSet, alGet, alGetD, lastN,
                  sumTrues, Cnt.zero, hc, hb, hsk, hT, hcnt, hst, hm, hp, hbb, hrk, ht,
                  List.enum]
            have hE' : matchEmitCount
                (searchStep lifetime ⟨0, 0, 0, 0, 0, N⟩ srcTopics srcProc matchFn
                  st r).events ≤ T + (t + 1) := by
              rw [bev]
              simp only [matchEmitCount, List.filter_append, List.length_append]
              simp only [matchEmitCount] at hE
              simp [List.filter]
              omega
            have := ih (searchStep lifetime ⟨0, 0, 0, 0, 0, N⟩ srcTopics srcProc matchFn st r)
              curB (c + 1) (t + 1) T (some true) bc bb bsk bT bcnt bst hE' hrest
            have hacc : T + (t + 1) = T + t + 1 := by omega
            rw [hacc] at this
            simpa [c10Step, hbb, hp, hm, hrk] using this
          · obtain ⟨bc, bb, bsk, bT, bcnt, bst, bev⟩ :
                (searchStep lifetime ⟨0, 0, 0, 0, 0, N⟩ srcTopics srcProc matchFn st r).counter
                    = c + 1 ∧
                (searchStep lifetime ⟨0, 0, 0, 0, 0, N⟩ srcTopics srcProc matchFn st r).batch
                    = some curB ∧
                (searchStep lifetime ⟨0, 0, 0, 0, 0, N⟩ srcTopics srcProc matchFn
                    st r).skipBatch = none ∧
                (searchStep lifetime ⟨0, 0, 0, 0, 0, N⟩ srcTopics srcProc matchFn
                    st r).totalMatched = T ∧
                (searchStep lifetime ⟨0, 0, 0, 0, 0, N⟩ srcTopics srcProc matchFn st r).counts
                    = [(k, ⟨c + 1, t + 1, 0⟩)] ∧
                (searchStep lifetime ⟨0, 0, 0, 0, 0, N⟩ srcTopics srcProc matchFn
                    st r).statuses = [(k, [(c + 1, some true)])] ∧
                (searchStep lifetime ⟨0, 0, 0, 0, 0, N⟩ srcTopics srcProc matchFn st r).events
                    = st.events := by
              refine ⟨?_, ?_, ?_, ?_, ?_, ?_, ?_⟩ <;>
                simp [searchStep, stepBoundary, stepRegister, stepMatch, stepFinish, emitContext, emitContextOne, isProcessableS, hasInWindowF,
                  pruneData, clearData, isMaxDone, alUpd, alSet, alGet, alGetD, lastN,
                  sumTrues, Cnt.zero, hc, hb, hsk, hT, hcnt, hst, hm, hp, hbb, hrk, ht,
                  List.enum]
            have := ih (searchStep lifetime ⟨0, 0, 0, 0, 0, N⟩ srcTopics srcProc matchFn st r)
              curB (c + 1) (t + 1) T (some true) bc bb bsk bT bcnt bst
              (by rw [bev]; omega) hrest
            have hacc : T + (t + 1) = T + t + 1 := by omega
            rw [hacc] at this
            simpa [c10Step, hbb, hp, hm, hrk] using this
      · obtain ⟨bc, bb, bsk, bT, bcnt, bst, bev⟩ :
            (searchStep lifetime ⟨0, 0, 0, 0, 0, N⟩ srcTopics srcProc matchFn st r).counter
                = c + 1 ∧
            (searchStep lifetime ⟨0, 0, 0, 0, 0, N⟩ srcTopics srcProc matchFn st r).batch
                = some curB ∧
            (searchStep lifetime ⟨0, 0, 0, 0, 0, N⟩ srcTopics srcProc matchFn st r).skipBatch
                = none ∧
            (searchStep lifetime ⟨0, 0, 0, 0, 0, N⟩ srcTopics srcProc matchFn
                st r).totalMatched = T ∧
            (searchStep lifetime ⟨0, 0, 0, 0, 0, N⟩ srcTopics srcProc matchFn st r).counts
                = [(k, ⟨c + 1, t, 0⟩)] ∧
            (searchStep lifetime ⟨0, 0, 0, 0, 0, N⟩ srcTopics srcProc matchFn st r).statuses
                = [(k, [(c + 1, none)])] ∧
            (searchStep lifetime ⟨0, 0, 0, 0, 0, N⟩ srcTopics srcProc matchFn st r).events
                = st.events := by
          refine ⟨?_, ?_, ?_, ?_, ?_, ?_, ?_⟩ <;>
            simp [searchStep, stepBoundary, stepRegister, stepMatch, stepFinish, emitContext, emitContextOne, isProcessableS, hasInWindowF,
              pruneData, clearData, isMaxDone, alUpd, alSet, alGet, alGetD, lastN,
              sumTrues, Cnt.zero, hc, hb, hsk, hT, hcnt, hst, hp, hbb, hrk]
        have := ih (searchStep lifetime ⟨0, 0, 0, 0, 0, N⟩ srcTopics srcProc matchFn st r)
          curB (c + 1) t T none bc bb bsk bT bcnt bst (by rw [bev]; exact hE) hrest
        simpa [c10Step, hbb, hp, hrk] using this
    · by_cases hp : srcProc k.1 1 r.stamp r.msg = true
      · cases hm : matchFn r.msg with
        | none =>
          obtain ⟨bc, bb, bsk, bT, bcnt, bst, bev⟩ :
              (searchStep lifetime ⟨0, 0, 0, 0, 0, N⟩ srcTopics srcProc matchFn st r).counter
                  = 1 ∧
              (searchStep lifetime ⟨0, 0, 0, 0, 0, N⟩ srcTopics srcProc matchFn st r).batch
                  = some r.batch ∧
              (searchStep lifetime ⟨0, 0, 0, 0, 0, N⟩ srcTopics srcProc matchFn st r).skipBatch
                  = none ∧
              (searchStep lifetime ⟨0, 0, 0, 0, 0, N⟩ srcTopics srcProc matchFn
                  st r).totalMatched = T + t ∧
              (searchStep lifetime ⟨0, 0, 0, 0, 0, N⟩ srcTopics srcProc matchFn st r).counts
                  = [(k, ⟨1, 0, 0⟩)] ∧
              (searchStep lifetime ⟨0, 0, 0, 0, 0, N⟩ srcTopics srcProc matchFn st r).statuses
                  = [(k, [(1, none)])] ∧
              (searchStep lifetime ⟨0, 0, 0, 0, 0, N⟩ srcTopics srcProc matchFn st r).events
                  = st.events := by
            refine ⟨?_, ?_, ?_, ?_, ?_, ?_, ?_⟩ <;>
              simp [searchStep, stepBoundary, stepRegister, stepMatch, stepFinish, emitContext, emitContextOne, isProcessableS, hasInWindowF,
                pruneData, clearData, isMaxDone, alUpd, alSet, alGet, alGetD, lastN,
                sumTrues, Cnt.zero, hc, hb, hsk, hT, hcnt, hst, hm, hp, hbb, Ne.symm hbb, hrk]
          have := ih (searchStep lifetime ⟨0, 0, 0, 0, 0, N⟩ srcTopics srcProc matchFn st r)
            r.batch 1 0 (T + t) none bc bb bsk bT bcnt bst (by rw [bev]; omega) hrest
          simpa [c10Step, hbb, Ne.symm hbb, hp, hm, hrk] using this
        | some m =>
          obtain ⟨bc, bb, bsk, bT, bcnt, bst, bev⟩ :
              (searchStep lifetime ⟨0, 0, 0, 0, 0, N⟩ srcTopics srcProc matchFn st r).counter
                  = 1 ∧
              (searchStep lifetime ⟨0, 0, 0, 0, 0, N⟩ srcTopics srcProc matchFn st r).batch
                  = some r.batch ∧
              (searchStep lifetime ⟨0, 0, 0, 0, 0, N⟩ srcTopics srcProc matchFn st r).skipBatch
                  = none ∧
              (searchStep lifetime ⟨0, 0, 0, 0, 0, N⟩ srcTopics srcProc matchFn
                  st r).totalMatched = T + t ∧
              (searchStep lifetime ⟨0, 0, 0, 0, 0, N⟩ srcTopics srcProc matchFn st r).counts
                  = [(k, ⟨1, 1, 0⟩)] ∧
              (searchStep lifetime ⟨0, 0, 0, 0, 0, N⟩ srcTopics srcProc matchFn st r).statuses
                  = [(k, [(1, some true)])] ∧
              (searchStep lifetime ⟨0, 0, 0, 0, 0, N⟩ srcTopics srcProc matchFn st r).events
                  = st.events ++ [SinkEvent.emitMeta,
                      SinkEvent.emit k.1 1 r.stamp r.msg (some m)] := by
            refine ⟨?_, ?_, ?_, ?_, ?_, ?_, ?_⟩ <;>
              simp [searchStep, stepBoundary, stepRegister, stepMatch, stepFinish, emitContext, emitContextOne, isProcessableS, hasInWindowF,
                pruneData, clearData, isMaxDone, alUpd, alSet, alGet, alGetD, lastN,
                sumTrues, Cnt.zero, hc, hb, hsk, hT, hcnt, hst, hm, hp, hbb, Ne.symm hbb, hrk, List.enum]
          have hE' : matchEmitCount
              (searchStep lifetime ⟨0, 0, 0, 0, 0, N⟩ srcTopics srcProc matchFn
                st r).events ≤ (T + t) + 1 := by
            rw [bev]
            simp only [matchEmitCount, List.filter_append, List.length_append] at hE ⊢
            simp [List.filter]
            omega
          have := ih (searchStep lifetime ⟨0, 0, 0, 0, 0, N⟩ srcTopics srcProc matchFn st r)
            r.batch 1 1 (T + t) (some true) bc bb bsk bT bcnt bst hE' hrest
          simpa [c10Step, hbb, Ne.symm hbb, hp, hm, hrk] using this
      · obtain ⟨bc, bb, bsk, bT, bcnt, bst, bev⟩ :
            (searchStep lifetime ⟨0, 0, 0, 0, 0, N⟩ srcTopics srcProc matchFn st r).counter
                = 1 ∧
            (searchStep lifetime ⟨0, 0, 0, 0, 0, N⟩ srcTopics srcProc matchFn st r).batch
                = some r.batch ∧
            (searchStep lifetime ⟨0, 0, 0, 0, 0, N⟩ srcTopics srcProc matchFn st r).skipBatch
                = none ∧
            (searchStep lifetime ⟨0, 0, 0, 0, 0, N⟩ srcTopics srcProc matchFn
                st r).totalMatched = T + t ∧
            (searchStep lifetime ⟨0, 0, 0, 0, 0, N⟩ srcTopics srcProc matchFn st r).counts
                = [(k, ⟨1, 0, 0⟩)] ∧
            (searchStep lifetime ⟨0, 0, 0, 0, 0, N⟩ srcTopics srcProc matchFn st r).statuses
                = [(k, [(1, none)])] ∧
            (searchStep lifetime ⟨0, 0, 0, 0, 0, N⟩ srcTopics srcProc matchFn st r).events
                = st.events := by
          refine ⟨?_, ?_, ?_, ?_, ?_, ?_, ?_⟩ <;>
            simp [searchStep, stepBoundary, stepRegister, stepMatch, stepFinish, emitContext, emitContextOne, isProcessableS, hasInWindowF,
              pruneData, clearData, isMaxDone, alUpd, alSet, alGet, alGetD, lastN,
              sumTrues, Cnt.zero, hc, hb, hsk, hT, hcnt, hst, hp, hbb, Ne.symm hbb, hrk]
        have := ih (searchStep lifetime ⟨0, 0, 0, 0, 0, N⟩ srcTopics srcProc matchFn st r)
          r.batch 1 0 (T + t) none bc bb bsk bT bcnt bst (by rw [bev]; omega) hrest
        simpa [c10Step, hbb, Ne.symm hbb, hp, hrk] using this

set_option maxHeartbeats 2000000 in
/-- C10.  With quotas disabled and no context window, over a single channel
the value returned by `Searcher.search` equals the reference count of records
that passed the source-side processability check and matched the patterns,
summed across all batches and including matches suppressed by Nth-match
decimation; the number of match emissions to the sink never exceeds it. -/
theorem c10_search_return_counts_matches (lifetime : Int)
    (srcTopics : List (TopicKey × Option Nat))
    (srcProc : String → Nat → Int → SMsg → Bool) (matchFn : SMsg → Option SMsg)
    (k : TopicKey) (N : Nat) (rs : List SRec) (hall : ∀ r ∈ rs, r.key = k) :
    searchReturn lifetime ⟨0, 0, 0, 0, 0, N⟩ srcTopics srcProc matchFn rs
        = matchedRef k srcProc matchFn rs ∧
    matchEmitCount
        (searchRun lifetime ⟨0, 0, 0, 0, 0, N⟩ srcTopics srcProc matchFn rs).events
        ≤ matchedRef k srcProc matchFn rs := by
  cases rs with
  | nil =>
    constructor
    · rfl
    · simp [searchRun, searchFold, searchInit, matchEmitCount, matchedRef]
  | cons r1 rest =>
    have hrk : r1.key = k := hall r1 (by simp)
    have hrest : ∀ r' ∈ rest, r'.key = k := fun r' h => hall r' (List.mem_cons_of_mem _ h)
    simp only [searchReturn, searchRun, matchedRef]
    rw [searchFold_cons_of_skip lifetime ⟨0, 0, 0, 0, 0, N⟩ srcTopics srcProc matchFn
      searchInit r1 rest rfl]
    rw [List.foldl_cons]
    by_cases hp : srcProc k.1 1 r1.stamp r1.msg = true
    · cases hm : matchFn r1.msg with
      | none =>
        obtain ⟨bc, bb, bsk, bT, bcnt, bst, bev⟩ :
            (searchStep lifetime ⟨0, 0, 0, 0, 0, N⟩ srcTopics srcProc matchFn
                searchInit r1).counter = 1 ∧
            (searchStep lifetime ⟨0, 0, 0, 0, 0, N⟩ srcTopics srcProc matchFn
                searchInit r1).batch = some r1.batch ∧
            (searchStep lifetime ⟨0, 0, 0, 0, 0, N⟩ srcTopics srcProc matchFn
                searchInit r1).skipBatch = none ∧
            (searchStep lifetime ⟨0, 0, 0, 0, 0, N⟩ srcTopics srcProc matchFn
                searchInit r1).totalMatched = 0 ∧
            (searchStep lifetime ⟨0, 0, 0, 0, 0, N⟩ srcTopics srcProc matchFn
                searchInit r1).counts = [(k, ⟨1, 0, 0⟩)] ∧
            (searchStep lifetime ⟨0, 0, 0, 0, 0, N⟩ srcTopics srcProc matchFn
                searchInit r1).statuses = [(k, [(1, none)])] ∧
            (searchStep lifetime ⟨0, 0, 0, 0, 0, N⟩ srcTopics srcProc matchFn
                searchInit r1).events = [] := by
          refine ⟨?_, ?_, ?_, ?_, ?_, ?_, ?_⟩ <;>
            simp [searchStep, stepBoundary, stepRegister, stepMatch, stepFinish, searchInit, emitContext, emitContextOne, isProcessableS,
              hasInWindowF, pruneData, clearData, isMaxDone, alUpd, alSet, alGet, alGetD,
              lastN, sumTrues, Cnt.zero, hm, hp, hrk]
        have := c10_fold lifetime srcTopics srcProc matchFn k N rest
          (searchStep lifetime ⟨0, 0, 0, 0, 0, N⟩ srcTopics srcProc matchFn searchInit r1)
          r1.batch 1 0 0 none bc bb bsk bT bcnt bst (by rw [bev]; simp [matchEmitCount]) hrest
        simpa [c10Step, hp, hm, hrk] using this
      | some m =>
        obtain ⟨bc, bb, bsk, bT, bcnt, bst, bev⟩ :
            (searchStep lifetime ⟨0, 0, 0, 0, 0, N⟩ srcTopics srcProc matchFn
                searchInit r1).counter = 1 ∧
            (searchStep lifetime ⟨0, 0, 0, 0, 0, N⟩ srcTopics srcProc matchFn
                searchInit r1).batch = some r1.batch ∧
            (searchStep lifetime ⟨0, 0, 0, 0, 0, N⟩ srcTopics srcProc matchFn
                searchInit r1).skipBatch = none ∧
            (searchStep lifetime ⟨0, 0, 0, 0, 0, N⟩ srcTopics srcProc matchFn
                searchInit r1).totalMatched = 0 ∧
            (searchStep lifetime ⟨0, 0, 0, 0, 0, N⟩ srcTopics srcProc matchFn
                searchInit r1).counts = [(k, ⟨1, 1, 0⟩)] ∧
            (searchStep lifetime ⟨0, 0, 0, 0, 0, N⟩ srcTopics srcProc matchFn
                searchInit r1).statuses = [(k, [(1, some true)])] ∧
            (searchStep lifetime ⟨0, 0, 0, 0, 0, N⟩ srcTopics srcProc matchFn
                searchInit r1).events
              = [SinkEvent.emitMeta, SinkEvent.emit k.1 1 r1.stamp r1.msg (some m)] := by
          refine ⟨?_, ?_, ?_, ?_, ?_, ?_, ?_⟩ <;>
            simp [searchStep, stepBoundary, stepRegister, stepMatch, stepFinish, searchInit, emitContext, emitContextOne, isProcessableS,
              hasInWindowF, pruneData, clearData, isMaxDone, alUpd, alSet, alGet, alGetD,
              lastN, sumTrues, Cnt.zero, hm, hp, hrk, List.enum]
        have := c10_fold lifetime srcTopics srcProc matchFn k N rest
          (searchStep lifetime ⟨0, 0, 0, 0, 0, N⟩ srcTopics srcProc matchFn searchInit r1)
          r1.batch 1 1 0 (some true) bc bb bsk bT bcnt bst
          (by rw [bev]; simp [matchEmitCount]) hrest
        simpa [c10Step, hp, hm, hrk] using this
    · obtain ⟨bc, bb, bsk, bT, bcnt, bst, bev⟩ :
          (searchStep lifetime ⟨0, 0, 0, 0, 0, N⟩ srcTopics srcProc matchFn
              searchInit r1).counter = 1 ∧
          (searchStep lifetime ⟨0, 0, 0, 0, 0, N⟩ srcTopics srcProc matchFn
              searchInit r1).batch = some r1.batch ∧
          (searchStep lifetime ⟨0, 0, 0, 0, 0, N⟩ srcTopics srcProc matchFn
              searchInit r1).skipBatch = none ∧
          (searchStep lifetime ⟨0, 0, 0, 0, 0, N⟩ srcTopics srcProc matchFn
              searchInit r1).totalMatched = 0 ∧
          (searchStep lifetime ⟨0, 0, 0, 0, 0, N⟩ srcTopics srcProc matchFn
              searchInit r1).counts = [(k, ⟨1, 0, 0⟩)] ∧
          (searchStep lifetime ⟨0, 0, 0, 0, 0, N⟩ srcTopics srcProc matchFn
              searchInit r1).statuses = [(k, [(1, none)])] ∧
          (searchStep lifetime ⟨0, 0, 0, 0, 0, N⟩ srcTopics srcProc matchFn
              searchInit r1).events = [] := by
        refine ⟨?_, ?_, ?_, ?_, ?_, ?_, ?_⟩ <;>
          simp [searchStep, stepBoundary, stepRegister, stepMatch, stepFinish, searchInit, emitContext, emitContextOne, isProcessableS,
            hasInWindowF, pruneData, clearData, isMaxDone, alUpd, alSet, alGet, alGetD,
            lastN, sumTrues, Cnt.zero, hp, hrk]
      have := c10_fold lifetime srcTopics srcProc matchFn k N rest
        (searchStep lifetime ⟨0, 0, 0, 0, 0, N⟩ srcTopics srcProc matchFn searchInit r1)
        r1.batch 1 0 0 none bc bb bsk bT bcnt bst (by rw [bev]; simp [matchEmitCount]) hrest
      simpa [c10Step, hp, hrk] using this

/-- Witness for C10: three matching records under `nth_match = 2` yield a
return value of 3 — exceeding the 2 match emissions. -/
theorem c10_search_return_counts_matches_witness :
    searchReturn 3 ⟨0, 0, 0, 0, 0, 2⟩ [] alwaysProc (fun m => some m)
        [⟨1, ("t", "T", "h"), 101, ⟨1, 0⟩, 0⟩,
         ⟨1, ("t", "T", "h"), 102, ⟨2, 0⟩, 0⟩,
         ⟨1, ("t", "T", "h"), 103, ⟨3, 0⟩, 0⟩] = 3 ∧
    matchEmitCount (searchRun 3 ⟨0, 0, 0, 0, 0, 2⟩ [] alwaysProc (fun m => some m)
        [⟨1, ("t", "T", "h"), 101, ⟨1, 0⟩, 0⟩,
         ⟨1, ("t", "T", "h"), 102, ⟨2, 0⟩, 0⟩,
         ⟨1, ("t", "T", "h"), 103, ⟨3, 0⟩, 0⟩]).events = 2 := by
  obtain ⟨h1, h2⟩ := c10_search_return_counts_matches 3 [] alwaysProc (fun m => some m)
    ("t", "T", "h") 2
    [⟨1, ("t", "T", "h"), 101, ⟨1, 0⟩, 0⟩,
     ⟨1, ("t", "T", "h"), 102, ⟨2, 0⟩, 0⟩,
     ⟨1, ("t", "T", "h"), 103, ⟨3, 0⟩, 0⟩] (by decide)
  exact ⟨h1.trans (by decide), by decide⟩

/-! ### Context emission touches only its own channel's statuses and counts -/

theorem emitContextOne_messages (b : Bool) (k : TopicKey) (ci : Int) (n : Nat)
    (st : SState) (p : Nat × Nat) : (emitContextOne b k ci n st p).messages = st.messages := by
  simp only [emitContextOne]
  split <;> rfl

theorem emitContextOne_stamps (b : Bool) (k : TopicKey) (ci : Int) (n : Nat)
    (st : SState) (p : Nat × Nat) : (emitContextOne b k ci n st p).stamps = st.stamps := by
  simp only [emitContextOne]
  split <;> rfl

theorem emitContextOne_meta (b : Bool) (k : TopicKey) (ci : Int) (n : Nat)
    (st : SState) (p : Nat × Nat) : (emitContextOne b k ci n st p).meta = st.meta := by
  simp only [emitContextOne]
  split <;> rfl

theorem emitContextOne_statuses_other (b : Bool) (k : TopicKey) (ci : Int) (n : Nat)
    (st : SState) (p : Nat × Nat) (k2 : TopicKey) (h : ¬ k2 = k) :
    alGetD (emitContextOne b k ci n st p).statuses k2 [] = alGetD st.statuses k2 [] := by
  simp only [emitContextOne]
  split
  · simp [alGetD_alUpd_other _ _ _ _ _ _ fun hh => h hh.symm]
  · rfl

theorem emitContextFold_messages (b : Bool) (k : TopicKey) (ci : Int) (n : Nat) :
    ∀ (l : List (Nat × Nat)) (st : SState),
      (l.foldl (emitContextOne b k ci n) st).messages = st.messages := by
  intro l
  induction l with
  | nil => intro st; rfl
  | cons p rest ih => intro st; rw [List.foldl_cons, ih, emitContextOne_messages]

theorem emitContextFold_stamps (b : Bool) (k : TopicKey) (ci : Int) (n : Nat) :
    ∀ (l : List (Nat × Nat)) (st : SState),
      (l.foldl (emitContextOne b k ci n) st).stamps = st.stamps := by
  intro l
  induction l with
  | nil => intro st; rfl
  | cons p rest ih => intro st; rw [List.foldl_cons, ih, emitContextOne_stamps]

theorem emitContextFold_meta (b : Bool) (k : TopicKey) (ci : Int) (n : Nat) :
    ∀ (l : List (Nat × Nat)) (st : SState),
      (l.foldl (emitContextOne b k ci n) st).meta = st.meta := by
  intro l
  induction l with
  | nil => intro st; rfl
  | cons p rest ih => intro st; rw [List.foldl_cons, ih, emitContextOne_meta]

theorem emitContextFold_statuses_other (b : Bool) (k : TopicKey) (ci : Int) (n : Nat)
    (k2 : TopicKey) (h : ¬ k2 = k) :
    ∀ (l : List (Nat × Nat)) (st : SState),
      alGetD (l.foldl (emitContextOne b k ci n) st).statuses k2 []
        = alGetD st.statuses k2 [] := by
  intro l
  induction l with
  | nil => intro st; rfl
  | cons p rest ih =>
    intro st
    rw [List.foldl_cons, ih, emitContextOne_statuses_other _ _ _ _ _ _ _ h]

theorem emitContext_messages (args : SearchArgs) (st : SState) (k : TopicKey) (b : Bool) :
    (emitContext args st k b).messages = st.messages := by
  simp only [emitContext]
  split <;> split <;> first
    | rfl
    | rw [emitContextFold_messages]

theorem emitContext_stamps (args : SearchArgs) (st : SState) (k : TopicKey) (b : Bool) :
    (emitContext args st k b).stamps = st.stamps := by
  simp only [emitContext]
  split <;> split <;> first
    | rfl
    | rw [emitContextFold_stamps]

theorem emitContext_meta (args : SearchArgs) (st : SState) (k : TopicKey) (b : Bool) :
    (emitContext args st k b).meta = st.meta := by
  simp only [emitContext]
  split <;> split <;> first
    | rfl
    | rw [emitContextFold_meta]

theorem emitContext_statuses_other (args : SearchArgs) (st : SState) (k : TopicKey)
    (b : Bool) (k2 : TopicKey) (h : ¬ k2 = k) :
    alGetD (emitContext args st k b).statuses k2 [] = alGetD st.statuses k2 [] := by
  simp only [emitContext]
  split <;> split <;> first
    | rfl
    | rw [emitContextFold_statuses_other _ _ _ _ _ h]

/-! ### Pruning bounds the processed channel and leaves the others alone -/

theorem pruneData_messages_self (lifetime now : Int) (args : SearchArgs) (st : SState)
    (k : TopicKey) :
    (alGetD (pruneData lifetime now args st k).messages k []).length
      ≤ max args.BEFORE args.AFTER + 1 := by
  simp only [pruneData, alGetD, alGet_alSet_self, Option.getD_some, List.length_drop]
  omega

theorem pruneData_stamps_self (lifetime now : Int) (args : SearchArgs) (st : SState)
    (k : TopicKey) :
    (alGetD (pruneData lifetime now args st k).stamps k []).length
      ≤ max args.BEFORE args.AFTER + 1 := by
  rw [show (pruneData lifetime now args st k).stamps
      = alUpd [] (fun l => l.drop (l.length - (max args.BEFORE args.AFTER + 1))) st.stamps k
    from rfl]
  rw [alGetD_alUpd_self]
  simp only [List.length_drop]
  omega

theorem pruneData_statuses_self (lifetime now : Int) (args : SearchArgs) (st : SState)
    (k : TopicKey) :
    (alGetD (pruneData lifetime now args st k).statuses k []).length
      ≤ max args.BEFORE args.AFTER + 1 := by
  rw [show (pruneData lifetime now args st k).statuses
      = alUpd [] (fun l => l.drop (l.length - (max args.BEFORE args.AFTER + 1))) st.statuses k
    from rfl]
  rw [alGetD_alUpd_self]
  simp only [List.length_drop]
  omega

theorem pruneData_messages_other (lifetime now : Int) (args : SearchArgs) (st : SState)
    (k k2 : TopicKey) (h : ¬ k2 = k) :
    alGetD (pruneData lifetime now args st k).messages k2 []
      = alGetD st.messages k2 [] := by
  simp only [pruneData, alGetD]
  rw [alGet_alSet_other _ _ _ _ fun hh => h hh.symm]

theorem pruneData_stamps_other (lifetime now : Int) (args : SearchArgs) (st : SState)
    (k k2 : TopicKey) (h : ¬ k2 = k) :
    alGetD (pruneData lifetime now args st k).stamps k2 [] = alGetD st.stamps k2 [] := by
  rw [show (pruneData lifetime now args st k).stamps
      = alUpd [] (fun l => l.drop (l.length - (max args.BEFORE args.AFTER + 1))) st.stamps k
    from rfl]
  rw [alGetD_alUpd_other _ _ _ _ _ _ fun hh => h hh.symm]

theorem pruneData_statuses_other (lifetime now : Int) (args : SearchArgs) (st : SState)
    (k k2 : TopicKey) (h : ¬ k2 = k) :
    alGetD (pruneData lifetime now args st k).statuses k2 [] = alGetD st.statuses k2 [] := by
  rw [show (pruneData lifetime now args st k).statuses
      = alUpd [] (fun l => l.drop (l.length - (max args.BEFORE args.AFTER + 1))) st.statuses k
    from rfl]
  rw [alGetD_alUpd_other _ _ _ _ _ _ fun hh => h hh.symm]

/-! ### Per-stage window projections -/

theorem stepFinish_messages (lifetime : Int) (args : SearchArgs)
    (srcTopics : List (TopicKey × Option Nat)) (st : SState) (r : SRec) :
    (stepFinish lifetime args srcTopics st r).messages
      = (pruneData lifetime r.now args st r.key).messages := by
  simp only [stepFinish]
  split <;> rfl

theorem stepFinish_stamps (lifetime : Int) (args : SearchArgs)
    (srcTopics : List (TopicKey × Option Nat)) (st : SState) (r : SRec) :
    (stepFinish lifetime args srcTopics st r).stamps
      = (pruneData lifetime r.now args st r.key).stamps := by
  simp only [stepFinish]
  split <;> rfl

theorem stepFinish_statuses (lifetime : Int) (args : SearchArgs)
    (srcTopics : List (TopicKey × Option Nat)) (st : SState) (r : SRec) :
    (stepFinish lifetime args srcTopics st r).statuses
      = (pruneData lifetime r.now args st r.key).statuses := by
  simp only [stepFinish]
  split <;> rfl

theorem stepFinish_meta (lifetime : Int) (args : SearchArgs)
    (srcTopics : List (TopicKey × Option Nat)) (st : SState) (r : SRec) :
    (stepFinish lifetime args srcTopics st r).meta
      = (pruneData lifetime r.now args st r.key).meta := by
  simp only [stepFinish]
  split <;> rfl

theorem stepFinish_droppedIds (lifetime : Int) (args : SearchArgs)
    (srcTopics : List (TopicKey × Option Nat)) (st : SState) (r : SRec) :
    (stepFinish lifetime args srcTopics st r).droppedIds
      = (pruneData lifetime r.now args st r.key).droppedIds := by
  simp only [stepFinish]
  split <;> rfl

theorem stepMatch_messages (lifetime : Int) (args : SearchArgs)
    (srcProc : String → Nat → Int → SMsg → Bool) (matchFn : SMsg → Option SMsg)
    (st : SState) (r : SRec) :
    (stepMatch lifetime args srcProc matchFn st r).messages = st.messages := by
  simp only [stepMatch]
  split_ifs <;> simp [emitContext_messages]

theorem stepMatch_stamps (lifetime : Int) (args : SearchArgs)
    (srcProc : String → Nat → Int → SMsg → Bool) (matchFn : SMsg → Option SMsg)
    (st : SState) (r : SRec) :
    (stepMatch lifetime args srcProc matchFn st r).stamps = st.stamps := by
  simp only [stepMatch]
  split_ifs <;> simp [emitContext_stamps]

theorem stepMatch_statuses_other (lifetime : Int) (args : SearchArgs)
    (srcProc : String → Nat → Int → SMsg → Bool) (matchFn : SMsg → Option SMsg)
    (st : SState) (r : SRec) (k2 : TopicKey) (h : ¬ k2 = r.key) :
    alGetD (stepMatch lifetime args srcProc matchFn st r).statuses k2 []
      = alGetD st.statuses k2 [] := by
  simp only [stepMatch]
  split_ifs <;>
    simp [emitContext_statuses_other _ _ _ _ _ h,
      alGetD_alUpd_other _ _ _ _ _ _ fun hh => h hh.symm]

theorem stepRegister_messages_other (lifetime : Int) (st : SState) (r : SRec)
    (k2 : TopicKey) (h : r.key ≠ k2) :
    alGetD (stepRegister lifetime st r).messages k2 [] = alGetD st.messages k2 [] := by
  simp only [stepRegister]
  exact alGetD_alUpd_other _ _ _ _ _ _ h

theorem stepRegister_stamps_other (lifetime : Int) (st : SState) (r : SRec)
    (k2 : TopicKey) (h : r.key ≠ k2) :
    alGetD (stepRegister lifetime st r).stamps k2 [] = alGetD st.stamps k2 [] := by
  simp only [stepRegister]
  exact alGetD_alUpd_other _ _ _ _ _ _ h

theorem stepRegister_statuses_other (lifetime : Int) (st : SState) (r : SRec)
    (k2 : TopicKey) (h : r.key ≠ k2) :
    alGetD (stepRegister lifetime st r).statuses k2 [] = alGetD st.statuses k2 [] := by
  simp only [stepRegister]
  exact alGetD_alUpd_other _ _ _ _ _ _ h

theorem stepBoundary_messages_le (st : SState) (r : SRec) (k2 : TopicKey) :
    (alGetD (stepBoundary st r).messages k2 []).length
      ≤ (alGetD st.messages k2 []).length := by
  simp only [stepBoundary]
  split_ifs <;> simp [clearData, alGetD, alGet]

theorem stepBoundary_stamps_le (st : SState) (r : SRec) (k2 : TopicKey) :
    (alGetD (stepBoundary st r).stamps k2 []).length
      ≤ (alGetD st.stamps k2 []).length := by
  simp only [stepBoundary]
  split_ifs <;> simp [clearData, alGetD, alGet]

theorem stepBoundary_statuses_le (st : SState) (r : SRec) (k2 : TopicKey) :
    (alGetD (stepBoundary st r).statuses k2 []).length
      ≤ (alGetD st.statuses k2 []).length := by
  simp only [stepBoundary]
  split_ifs <;> simp [clearData, alGetD, alGet]

/-- One loop iteration keeps every channel's three window maps within the
`max(BEFORE, AFTER) + 1` bound: the processed channel is pruned to the bound,
other channels are untouched (or cleared at a batch boundary). -/
theorem searchStep_window_bound (lifetime : Int) (args : SearchArgs)
    (srcTopics : List (TopicKey × Option Nat))
    (srcProc : String → Nat → Int → SMsg → Bool) (matchFn : SMsg → Option SMsg)
    (st : SState) (r : SRec)
    (h : ∀ k2 : TopicKey,
      (alGetD st.messages k2 []).length ≤ max args.BEFORE args.AFTER + 1 ∧
      (alGetD st.stamps k2 []).length ≤ max args.BEFORE args.AFTER + 1 ∧
      (alGetD st.statuses k2 []).length ≤ max args.BEFORE args.AFTER + 1) :
    ∀ k2 : TopicKey,
      (alGetD (searchStep lifetime args srcTopics srcProc matchFn st r).messages k2 []).length
          ≤ max args.BEFORE args.AFTER + 1 ∧
      (alGetD (searchStep lifetime args srcTopics srcProc matchFn st r).stamps k2 []).length
          ≤ max args.BEFORE args.AFTER + 1 ∧
      (alGetD (searchStep lifetime args srcTopics srcProc matchFn st r).statuses k2 []).length
          ≤ max args.BEFORE args.AFTER + 1 := by
  intro k2
  by_cases hk : k2 = r.key
  · subst hk
    refine ⟨?_, ?_, ?_⟩
    · rw [show (searchStep lifetime args srcTopics srcProc matchFn st r).messages
          = (stepFinish lifetime args srcTopics
              (stepMatch lifetime args srcProc matchFn
                (stepRegister lifetime (stepBoundary st r) r) r) r).messages from rfl,
        stepFinish_messages]
      exact pruneData_messages_self lifetime r.now args _ r.key
    · rw [show (searchStep lifetime args srcTopics srcProc matchFn st r).stamps
          = (stepFinish lifetime args srcTopics
              (stepMatch lifetime args srcProc matchFn
                (stepRegister lifetime (stepBoundary st r) r) r) r).stamps from rfl,
        stepFinish_stamps]
      exact pruneData_stamps_self lifetime r.now args _ r.key
    · rw [show (searchStep lifetime args srcTopics srcProc matchFn st r).statuses
          = (stepFinish lifetime args srcTopics
              (stepMatch lifetime args srcProc matchFn
                (stepRegister lifetime (stepBoundary st r) r) r) r).statuses from rfl,
        stepFinish_statuses]
      exact pruneData_statuses_self lifetime r.now args _ r.key
  · have hsym : r.key ≠ k2 := fun hh => hk hh.symm
    obtain ⟨h1, h2, h3⟩ := h k2
    refine ⟨?_, ?_, ?_⟩
    · rw [show (searchStep lifetime args srcTopics srcProc matchFn st r).messages
          = (stepFinish lifetime args srcTopics
              (stepMatch lifetime args srcProc matchFn
                (stepRegister lifetime (stepBoundary st r) r) r) r).messages from rfl,
        stepFinish_messages, pruneData_messages_other _ _ _ _ _ _ hk, stepMatch_messages,
        stepRegister_messages_other _ _ _ _ hsym]
      exact le_trans (stepBoundary_messages_le st r k2) h1
    · rw [show (searchStep lifetime args srcTopics srcProc matchFn st r).stamps
          = (stepFinish lifetime args srcTopics
              (stepMatch lifetime args srcProc matchFn
                (stepRegister lifetime (stepBoundary st r) r) r) r).stamps from rfl,
        stepFinish_stamps, pruneData_stamps_other _ _ _ _ _ _ hk, stepMatch_stamps,
        stepRegister_stamps_other _ _ _ _ hsym]
      exact le_trans (stepBoundary_stamps_le st r k2) h2
    · rw [show (searchStep lifetime args srcTopics srcProc matchFn st r).statuses
          = (stepFinish lifetime args srcTopics
              (stepMatch lifetime args srcProc matchFn
                (stepRegister lifetime (stepBoundary st r) r) r) r).statuses from rfl,
        stepFinish_statuses, pruneData_statuses_other _ _ _ _ _ _ hk,
        stepMatch_statuses_other _ _ _ _ _ _ _ hk, stepRegister_statuses_other _ _ _ _ hsym]
      exact le_trans (stepBoundary_statuses_le st r k2) h3

/-! ### The TypeMeta registry discards dropped snapshots -/

theorem tmSweep_cacheIds_subset (lifetime now : Int) (mc : MetaCache) :
    ∀ i, i ∈ (tmSweep lifetime now mc).cacheIds → i ∈ mc.cacheIds := by
  intro i hi
  simp only [tmSweep] at hi
  split at hi
  · exact hi
  · exact (List.mem_filter.mp hi).1

theorem tmDiscard_cacheIds_subset (lifetime now : Int) (mid : Nat) (mc : MetaCache) :
    ∀ i, i ∈ (tmDiscard lifetime now mid mc).cacheIds → i ∈ mc.cacheIds := by
  intro i hi
  simp only [tmDiscard] at hi
  have h1 := tmSweep_cacheIds_subset lifetime now _ i hi
  exact (List.mem_filter.mp h1).1

/-- `TypeMeta.discard` removes the snapshot's own entry and every linked
child entry from the cache. -/
theorem tmDiscard_discards_self_and_children (lifetime now : Int) (mid : Nat)
    (mc : MetaCache) :
    ¬ mid ∈ (tmDiscard lifetime now mid mc).cacheIds ∧
    ∀ c ∈ alGetD mc.children mid [], ¬ c ∈ (tmDiscard lifetime now mid mc).cacheIds := by
  constructor
  · intro hmem
    simp only [tmDiscard] at hmem
    have h1 := tmSweep_cacheIds_subset lifetime now _ mid hmem
    have h2 := (List.mem_filter.mp h1).2
    simp at h2
  · intro c hc hmem
    simp only [tmDiscard] at hmem
    have h1 := tmSweep_cacheIds_subset lifetime now _ c hmem
    have h2 := (List.mem_filter.mp h1).2
    simp at h2
    exact h2.2 hc

theorem foldDiscard_preserves_absent (lifetime now : Int) :
    ∀ (l : List (Nat × SMsg)) (mc : MetaCache) (a : Nat),
      ¬ a ∈ mc.cacheIds →
      ¬ a ∈ (l.foldl (fun mc e => tmDiscard lifetime now e.2.mid mc) mc).cacheIds := by
  intro l
  induction l with
  | nil => intro mc a h; exact h
  | cons e0 rest ih =>
    intro mc a h
    rw [List.foldl_cons]
    exact ih _ a (fun hmem => h (tmDiscard_cacheIds_subset lifetime now e0.2.mid mc a hmem))

theorem foldDiscard_absent (lifetime now : Int) :
    ∀ (l : List (Nat × SMsg)) (mc : MetaCache) (e : Nat × SMsg), e ∈ l →
      ¬ e.2.mid ∈ (l.foldl (fun mc e => tmDiscard lifetime now e.2.mid mc) mc).cacheIds := by
  intro l
  induction l with
  | nil => intro mc e he; cases he
  | cons e0 rest ih =>
    intro mc e he
    rw [List.foldl_cons]
    rcases List.mem_cons.mp he with he | he
    · subst he
      exact foldDiscard_preserves_absent lifetime now rest _ e.2.mid
        (tmDiscard_discards_self_and_children lifetime now e.2.mid mc).1
    · exact ih _ e he

/-- Every message id dropped by `_prune_data` is gone from the `TypeMeta`
cache in the resulting state. -/
theorem pruneData_dropped_not_cached (lifetime now : Int) (args : SearchArgs)
    (st : SState) (k : TopicKey) :
    ∀ mid ∈ (pruneData lifetime now args st k).droppedIds,
      ¬ mid ∈ (pruneData lifetime now args st k).meta.cacheIds := by
  intro mid hmid
  simp only [pruneData] at hmid ⊢
  obtain ⟨e, he, hemid⟩ := List.mem_map.mp hmid
  rw [← hemid]
  exact foldDiscard_absent lifetime now _ st.meta e he

theorem searchStep_dropped_not_cached (lifetime : Int) (args : SearchArgs)
    (srcTopics : List (TopicKey × Option Nat))
    (srcProc : String → Nat → Int → SMsg → Bool) (matchFn : SMsg → Option SMsg)
    (st : SState) (r : SRec) :
    ∀ mid ∈ (searchStep lifetime args srcTopics srcProc matchFn st r).droppedIds,
      ¬ mid ∈ (searchStep lifetime args srcTopics srcProc matchFn st r).meta.cacheIds := by
  intro mid hmid
  have hd : (searchStep lifetime args srcTopics srcProc matchFn st r).droppedIds
      = (pruneData lifetime r.now args
          (stepMatch lifetime args srcProc matchFn
            (stepRegister lifetime (stepBoundary st r) r) r) r.key).droppedIds :=
    stepFinish_droppedIds lifetime args srcTopics _ r
  have hm : (searchStep lifetime args srcTopics srcProc matchFn st r).meta
      = (pruneData lifetime r.now args
          (stepMatch lifetime args srcProc matchFn
            (stepRegister lifetime (stepBoundary st r) r) r) r.key).meta :=
    stepFinish_meta lifetime args srcTopics _ r
  rw [hd] at hmid
  rw [hm]
  exact pruneData_dropped_not_cached lifetime r.now args _ r.key mid hmid

theorem searchFold_window_bound (lifetime : Int) (args : SearchArgs)
    (srcTopics : List (TopicKey × Option Nat))
    (srcProc : String → Nat → Int → SMsg → Bool) (matchFn : SMsg → Option SMsg) :
    ∀ (rs : List SRec) (st : SState),
      (∀ k2 : TopicKey,
        (alGetD st.messages k2 []).length ≤ max args.BEFORE args.AFTER + 1 ∧
        (alGetD st.stamps k2 []).length ≤ max args.BEFORE args.AFTER + 1 ∧
        (alGetD st.statuses k2 []).length ≤ max args.BEFORE args.AFTER + 1) →
      ∀ k2 : TopicKey,
        (alGetD (searchFold lifetime args srcTopics srcProc matchFn st rs).messages
            k2 []).length ≤ max args.BEFORE args.AFTER + 1 ∧
        (alGetD (searchFold lifetime args srcTopics srcProc matchFn st rs).stamps
            k2 []).length ≤ max args.BEFORE args.AFTER + 1 ∧
        (alGetD (searchFold lifetime args srcTopics srcProc matchFn st rs).statuses
            k2 []).length ≤ max args.BEFORE args.AFTER + 1 := by
  intro rs
  induction rs with
  | nil => intro st h; exact h
  | cons r rest ih =>
    intro st h k2
    simp only [searchFold, List.foldl_cons]
    by_cases hs : st.skipBatch = some r.batch
    · rw [if_pos hs]
      exact ih st h k2
    · rw [if_neg hs]
      exact ih _ (searchStep_window_bound lifetime args srcTopics srcProc matchFn st r h) k2

/-- C8.  After every record processed by the search loop, each channel's
three window maps (messages, stamps, statuses) hold at most
`max(BEFORE, AFTER) + 1` entries; every message snapshot dropped by the prune
step has its id absent from the `TypeMeta` registry cache afterwards; and
`TypeMeta.discard` removes the snapshot's entry together with its linked
child entries from the cache. -/
theorem c8_window_bound_discard (lifetime : Int) (args : SearchArgs)
    (srcTopics : List (TopicKey × Option Nat))
    (srcProc : String → Nat → Int → SMsg → Bool) (matchFn : SMsg → Option SMsg) :
    (∀ (rs : List SRec) (k2 : TopicKey),
      (alGetD (searchRun lifetime args srcTopics srcProc matchFn rs).messages
          k2 []).length ≤ max args.BEFORE args.AFTER + 1 ∧
      (alGetD (searchRun lifetime args srcTopics srcProc matchFn rs).stamps
          k2 []).length ≤ max args.BEFORE args.AFTER + 1 ∧
      (alGetD (searchRun lifetime args srcTopics srcProc matchFn rs).statuses
          k2 []).length ≤ max args.BEFORE args.AFTER + 1) ∧
    (∀ (st : SState) (r : SRec),
      ∀ mid ∈ (searchStep lifetime args srcTopics srcProc matchFn st r).droppedIds,
        ¬ mid ∈ (searchStep lifetime args srcTopics srcProc matchFn st r).meta.cacheIds) ∧
    (∀ (now : Int) (mid : Nat) (mc : MetaCache),
      ¬ mid ∈ (tmDiscard lifetime now mid mc).cacheIds ∧
      ∀ c ∈ alGetD mc.children mid [],
        ¬ c ∈ (tmDiscard lifetime now mid mc).cacheIds) := by
  refine ⟨?_, ?_, ?_⟩
  · intro rs k2
    exact searchFold_window_bound lifetime args srcTopics srcProc matchFn rs searchInit
      (fun k2 => by simp [searchInit, alGetD, alGet]) k2
  · exact searchStep_dropped_not_cached lifetime args srcTopics srcProc matchFn
  · exact fun now mid mc => tmDiscard_discards_self_and_children lifetime now mid mc

/-- Witness for C8: with `before = after = 0` (window size 1) two successive
records on one channel drop the first snapshot, whose id `101` then has no
`TypeMeta` cache entry; and discarding id `7` with linked child `5` removes
the child as well. -/
theorem c8_window_bound_discard_witness :
    101 ∈ (searchStep 0 ⟨0, 0, 0, 0, 0, 0⟩ [] alwaysProc (fun _ => none)
        (searchStep 0 ⟨0, 0, 0, 0, 0, 0⟩ [] alwaysProc (fun _ => none) searchInit
          ⟨0, ("t", "T", "h"), 1, ⟨101, 0⟩, 0⟩)
        ⟨0, ("t", "T", "h"), 2, ⟨102, 0⟩, 0⟩).droppedIds ∧
    ¬ 101 ∈ (searchStep 0 ⟨0, 0, 0, 0, 0, 0⟩ [] alwaysProc (fun _ => none)
        (searchStep 0 ⟨0, 0, 0, 0, 0, 0⟩ [] alwaysProc (fun _ => none) searchInit
          ⟨0, ("t", "T", "h"), 1, ⟨101, 0⟩, 0⟩)
        ⟨0, ("t", "T", "h"), 2, ⟨102, 0⟩, 0⟩).meta.cacheIds ∧
    5 ∈ alGetD (⟨[7, 5], [(7, [5])], [], 0⟩ : MetaCache).children 7 [] ∧
    ¬ 5 ∈ (tmDiscard 0 0 7 ⟨[7, 5], [(7, [5])], [], 0⟩).cacheIds := by
  have hmem : 101 ∈ (searchStep 0 ⟨0, 0, 0, 0, 0, 0⟩ [] alwaysProc (fun _ => none)
      (searchStep 0 ⟨0, 0, 0, 0, 0, 0⟩ [] alwaysProc (fun _ => none) searchInit
        ⟨0, ("t", "T", "h"), 1, ⟨101, 0⟩, 0⟩)
      ⟨0, ("t", "T", "h"), 2, ⟨102, 0⟩, 0⟩).droppedIds := by decide
  have hc : 5 ∈ alGetD (⟨[7, 5], [(7, [5])], [], 0⟩ : MetaCache).children 7 [] := by decide
  exact ⟨hmem,
    (c8_window_bound_discard 0 ⟨0, 0, 0, 0, 0, 0⟩ [] alwaysProc (fun _ => none)).2.1
      _ _ 101 hmem,
    hc,
    ((c8_window_bound_discard 0 ⟨0, 0, 0, 0, 0, 0⟩ [] alwaysProc
      (fun _ => none)).2.2 0 7 ⟨[7, 5], [(7, [5])], [], 0⟩).2 5 hc⟩

/-! ### The matching engine under the universal pattern -/

theorem snd_mem_of_mem_enumFrom : ∀ (l : List α) (n : Nat) (q : Nat × α),
    q ∈ l.enumFrom n → q.2 ∈ l := by
  intro l
  induction l with
  | nil => intro n q h; cases h
  | cons a t ih =>
    intro n q h
    simp only [List.enumFrom] at h
    rcases List.mem_cons.mp h with h | h
    · subst h; simp
    · exact List.mem_cons_of_mem _ (ih (n + 1) q h)

theorem upd0_ne_nil (m : List Nat) : upd0 m ≠ [] := by
  unfold upd0
  split
  · exact List.ne_nil_of_mem (by assumption)
  · simp

theorem zero_mem_upd0 (m : List Nat) : 0 ∈ upd0 m := by
  unfold upd0
  split
  · assumption
  · simp

theorem upd0_idem (m : List Nat) : upd0 (upd0 m) = upd0 m := by
  rw [show upd0 (upd0 m) = if 0 ∈ upd0 m then upd0 m else upd0 m ++ [0] from rfl,
    if_pos (zero_mem_upd0 m)]

theorem wrapMatches_any (inv : Bool) (v : List Char) (top : List String) (m : List Nat) :
    (wrapMatches (anyCfg inv) v top m).2 = upd0 m := by
  cases v with
  | nil =>
    simp [wrapMatches, wrapStep, anyCfg, anyPat, anyFind, upd0, List.enum, List.enumFrom]
  | cons c t =>
    simp [wrapMatches, wrapStep, anyCfg, anyPat, anyFind, upd0, List.enum, List.enumFrom,
      List.filter]

mutual
theorem processMessage_any (inv : Bool) (obj : RVal) :
    ∀ (top : List String) (m : List Nat),
      (processMessage (anyCfg inv) obj top m).2
        = if hasLeaf obj then upd0 m
          else if top = [] ∧ m = [] ∧ obj = .vmsg .fnil ∧ inv = false then [0] else m := by
  cases obj with
  | vstr s =>
    intro top m
    simp only [processMessage, wrapMatches_any, hasLeaf]
    simp [upd0_ne_nil m]
  | vmsg fs =>
    intro top m
    simp only [processMessage, processFields_any inv fs top m, hasLeaf]
    cases fs with
    | fnil =>
      simp [hasLeafF, anyCfg, anyPat, List.range_succ, and_assoc]
    | fcons k v rest =>
      simp [hasLeafF]

theorem processFields_any (inv : Bool) (fs : RFields) :
    ∀ (top : List String) (m : List Nat),
      (processFields (anyCfg inv) fs top m).2
        = if hasLeafF fs then upd0 m else m := by
  cases fs with
  | fnil => intro top m; simp [processFields, hasLeafF]
  | fcons k v rest =>
    intro top m
    simp only [processFields]
    rw [show fieldVisible (anyCfg inv).selects (anyCfg inv).noselects (top ++ [k]) = true
      from rfl]
    cases v with
    | vstr s =>
      simp only [if_true, wrapMatches_any, processFields_any inv rest top (upd0 m)]
      simp [hasLeaf, hasLeafF, upd0_idem]
    | vmsg fs2 =>
      have hpm := processMessage_any inv (RVal.vmsg fs2) (top ++ [k]) m
      simp only [if_true]
      cases hl : hasLeafF fs2 with
      | true =>
        rw [if_pos (by simp [hasLeaf, hl])] at hpm
        rw [hpm, processFields_any inv rest top (upd0 m)]
        simp [hasLeafF, hasLeaf, hl, upd0_idem]
      | false =>
        rw [if_neg (by simp [hasLeaf, hl]), if_neg (by simp)] at hpm
        rw [hpm, processFields_any inv rest top m]
        simp [hasLeafF, hasLeaf, hl]
end

/-- Counterexample to C3: with zero content patterns (only the universal
rule) and a highlighting sink, a record whose only field is an empty nested
message does not match; and with `invert=true` the empty record does match. -/
theorem c3_universal_match_counterexample :
    getMatch (anyCfg false) true [] (.vmsg (.fcons "a" (.vmsg .fnil) .fnil)) = none ∧
    (getMatch (anyCfg true) true [] (.vmsg .fnil)).isSome = true := ⟨rfl, rfl⟩

/-- `get_match` without passthrough and without prechecks: the recursive
walk followed by the verdict on the matched set. -/
theorem getMatch_walk (cfg : MatchCfg) (b : Bool) (msg : RVal)
    (hp : passthroughOf cfg b = false) :
    getMatch cfg b [] msg
      = if (if cfg.invert = true then (processMessage cfg msg [] []).2.isEmpty = true
            else (processMessage cfg msg [] []).2.length = cfg.pats.length)
        then some (processMessage cfg msg [] []).1 else none := by
  simp only [getMatch, hp, Bool.false_eq_true, if_false, List.isEmpty_nil]
  simp only [not_true, false_and, if_false]
  by_cases hi : cfg.invert = true
  · simp [hi]
  · simp [hi]

/-- `getMatch_walk` for a non-inverted configuration. -/
theorem getMatch_walk_noninvert (cfg : MatchCfg) (b : Bool) (msg : RVal)
    (hp : passthroughOf cfg b = false) (hi : cfg.invert = false) :
    getMatch cfg b [] msg
      = if (processMessage cfg msg [] []).2.length = cfg.pats.length
        then some (processMessage cfg msg [] []).1 else none := by
  rw [getMatch_walk cfg b msg hp]
  simp [hi]

/-- `getMatch_walk` for an inverted configuration. -/
theorem getMatch_walk_invert (cfg : MatchCfg) (b : Bool) (msg : RVal)
    (hp : passthroughOf cfg b = false) (hi : cfg.invert = true) :
    getMatch cfg b [] msg
      = if (processMessage cfg msg [] []).2.isEmpty = true
        then some (processMessage cfg msg [] []).1 else none := by
  rw [getMatch_walk cfg b msg hp]
  simp [hi]

/-- C3 (amended).  With zero content pattern expressions the engine holds
exactly the universal rule, and then: with a non-highlighting sink every
record passes through unchanged (matches); with a highlighting sink a record
matches iff it contains a rendered leaf value or is the empty record; with
`invert=true` a record matches iff it contains no rendered leaf value. -/
theorem c3_universal_match_amended (msg : RVal) :
    getMatch (anyCfg false) false [] msg = some msg ∧
    (getMatch (anyCfg false) true [] msg).isSome = (hasLeaf msg || isEmptyRec msg) ∧
    (getMatch (anyCfg true) true [] msg).isSome = !hasLeaf msg := by
  refine ⟨rfl, ?_, ?_⟩
  · rw [getMatch_walk_noninvert (anyCfg false) true msg rfl rfl]
    have h := processMessage_any false msg [] []
    rcases msg with s | fs
    · rw [if_pos (by simp [hasLeaf])] at h
      simp only [h]
      simp [upd0, hasLeaf, isEmptyRec, anyCfg]
    · rcases fs with _ | ⟨k, v, rest⟩
      · rw [if_neg (by simp [hasLeaf, hasLeafF]), if_pos ⟨rfl, rfl, rfl, rfl⟩] at h
        simp only [h]
        simp [hasLeaf, hasLeafF, isEmptyRec, anyCfg]
      · cases hl : hasLeafF (.fcons k v rest) with
        | true =>
          rw [if_pos (by simp [hasLeaf, hl])] at h
          simp only [h]
          simp [upd0, hasLeaf, hl, isEmptyRec, anyCfg]
        | false =>
          rw [if_neg (by simp [hasLeaf, hl]), if_neg (by simp)] at h
          simp only [h]
          simp [hasLeaf, hl, isEmptyRec, anyCfg]
  · rw [getMatch_walk_invert (anyCfg true) true msg rfl rfl]
    have h := processMessage_any true msg [] []
    cases hl : hasLeaf msg with
    | true =>
      rw [if_pos (by simp [hl])] at h
      simp only [h]
      simp [upd0]
    | false =>
      rw [if_neg (by simp [hl]), if_neg (by simp)] at h
      simp only [h]
      simp [hl]

/-! ### The matching engine in inverted mode with nothing matching -/

theorem wrapStep_fold_id (cfg : MatchCfg) (v : List Char) (top : List String) :
    ∀ (l : List (Nat × CPat)), (∀ q ∈ l, q.2.find v = []) →
      ∀ (acc : List (Nat × Nat) × List Nat), l.foldl (wrapStep cfg v top) acc = acc := by
  intro l
  induction l with
  | nil => intro _ acc; rfl
  | cons q rest ih =>
    intro h acc
    rw [List.foldl_cons]
    have hq : wrapStep cfg v top acc q = acc := by
      simp [wrapStep, h q (by simp)]
    rw [hq]
    exact ih (fun q2 hq2 => h q2 (List.mem_cons_of_mem _ hq2)) acc

theorem insertMarkers_whole (v : List Char) :
    insertMarkers [(0, v.length)] v = markerStart ++ v ++ markerEnd := by
  simp [insertMarkers]

theorem wrapMatches_nomatch (cfg : MatchCfg) (hinv : cfg.invert = true)
    (hfind : ∀ p ∈ cfg.pats, ∀ w, p.find w = []) (v : List Char) (top : List String)
    (m : List Nat) :
    wrapMatches cfg v top m = (markerStart ++ v ++ markerEnd, m) := by
  have hl : ∀ q ∈ cfg.pats.enum, q.2.find v = [] := fun q hq =>
    hfind q.2 (snd_mem_of_mem_enumFrom cfg.pats 0 q hq) v
  simp only [wrapMatches, wrapStep_fold_id cfg v top cfg.pats.enum hl ([], m)]
  simp [hinv, insertMarkers_whole]

theorem marker_wrap_length (s : List Char) :
    (markerStart ++ s ++ markerEnd).length = s.length + 2 := by
  simp [markerStart, markerEnd]

mutual
theorem processMessage_nomatch (cfg : MatchCfg) (hinv : cfg.invert = true)
    (hs : cfg.selects = []) (hn : cfg.noselects = [])
    (hfind : ∀ p ∈ cfg.pats, ∀ w, p.find w = []) (obj : RVal) :
    ∀ (top : List String) (m : List Nat),
      processMessage cfg obj top m = (markAll obj, m) := by
  cases obj with
  | vstr s =>
    intro top m
    simp only [processMessage, wrapMatches_nomatch cfg hinv hfind s top m]
    rw [if_pos (by rw [marker_wrap_length]; omega)]
    simp [markAll, hinv]
  | vmsg fs =>
    intro top m
    simp only [processMessage, processFields_nomatch cfg hinv hs hn hfind fs top m]
    simp [markAll, hinv]

theorem processFields_nomatch (cfg : MatchCfg) (hinv : cfg.invert = true)
    (hs : cfg.selects = []) (hn : cfg.noselects = [])
    (hfind : ∀ p ∈ cfg.pats, ∀ w, p.find w = []) (fs : RFields) :
    ∀ (top : List String) (m : List Nat),
      processFields cfg fs top m = (markAllF fs, m) := by
  cases fs with
  | fnil => intro top m; rfl
  | fcons k v rest =>
    intro top m
    simp only [processFields, hs, hn]
    rw [show fieldVisible [] [] (top ++ [k]) = true from rfl]
    cases v with
    | vstr s =>
      simp only [if_true, wrapMatches_nomatch cfg hinv hfind s (top ++ [k]) m]
      rw [if_pos (by rw [marker_wrap_length]; omega)]
      simp only [processFields_nomatch cfg hinv hs hn hfind rest top m]
      simp [markAllF, markAll]
    | vmsg fs2 =>
      simp only [if_true,
        processMessage_nomatch cfg hinv hs hn hfind (RVal.vmsg fs2) (top ++ [k]) m,
        processFields_nomatch cfg hinv hs hn hfind rest top m]
      simp [markAllF]
end

mutual
theorem markAll_ne (obj : RVal) : hasLeaf obj = true → markAll obj ≠ obj := by
  cases obj with
  | vstr s =>
    intro _ hc
    simp only [markAll, RVal.vstr.injEq] at hc
    have := congrArg List.length hc
    rw [marker_wrap_length] at this
    omega
  | vmsg fs =>
    intro h hc
    simp only [markAll, RVal.vmsg.injEq] at hc
    exact markAllF_ne fs (by simpa [hasLeaf] using h) hc

theorem markAllF_ne (fs : RFields) : hasLeafF fs = true → markAllF fs ≠ fs := by
  cases fs with
  | fnil => intro h; simp [hasLeafF] at h
  | fcons k v rest =>
    intro h hc
    simp only [markAllF, RFields.fcons.injEq] at hc
    rcases (by simpa [hasLeafF] using h : hasLeaf v = true ∨ hasLeafF rest = true) with hv | hr
    · exact markAll_ne v hv hc.2.1
    · exact markAllF_ne rest hr hc.2.2
end

/-- Counterexample to C4: in inverted mode with a single pattern matching
nowhere, the engine signals a match but returns a record whose leaf value is
wrapped whole in match markers — not the unmodified record. -/
theorem c4_inverted_no_match_counterexample :
    getMatch ⟨[c4pat], true, [], []⟩ true [] (.vmsg (.fcons "a" (.vstr ['x']) .fnil))
      = some (.vmsg (.fcons "a" (.vstr ['\x01', 'x', '\x02']) .fnil)) ∧
    RVal.vmsg (.fcons "a" (.vstr ['\x01', 'x', '\x02']) .fnil)
      ≠ RVal.vmsg (.fcons "a" (.vstr ['x']) .fnil) := by
  refine ⟨rfl, by decide⟩

/-- C4 (amended).  In inverted mode, when no content rule finds a span in
any value, `get_match` signals a match but returns the record with every
rendered leaf value wrapped whole in match markers; in particular, whenever
the record has a leaf value at all, the returned record differs from the
original. -/
theorem c4_inverted_no_match_amended (pats : List CPat) (highlighting : Bool) (msg : RVal)
    (hfind : ∀ p ∈ pats, ∀ w, p.find w = []) :
    getMatch ⟨pats, true, [], []⟩ highlighting [] msg = some (markAll msg) ∧
    (hasLeaf msg = true →
      getMatch ⟨pats, true, [], []⟩ highlighting [] msg ≠ some msg) := by
  have hw : getMatch ⟨pats, true, [], []⟩ highlighting [] msg = some (markAll msg) := by
    rw [getMatch_walk_invert ⟨pats, true, [], []⟩ highlighting msg
      (by simp [passthroughOf]) rfl]
    rw [processMessage_nomatch ⟨pats, true, [], []⟩ rfl rfl rfl hfind msg [] []]
    simp
  refine ⟨hw, fun hl hc => ?_⟩
  rw [hw] at hc
  exact markAll_ne msg hl (Option.some.injEq _ _ ▸ hc.symm ▸ rfl)

/-- Witness for C4: the single never-matching pattern on a one-field record
yields the marker-wrapped copy, which differs from the original. -/
theorem c4_inverted_no_match_witness :
    getMatch ⟨[c4pat], true, [], []⟩ true [] (.vmsg (.fcons "a" (.vstr ['x']) .fnil))
      = some (markAll (.vmsg (.fcons "a" (.vstr ['x']) .fnil))) ∧
    getMatch ⟨[c4pat], true, [], []⟩ true [] (.vmsg (.fcons "a" (.vstr ['x']) .fnil))
      ≠ some (.vmsg (.fcons "a" (.vstr ['x']) .fnil)) := by
  have h := c4_inverted_no_match_amended [c4pat] true
    (.vmsg (.fcons "a" (.vstr ['x']) .fnil))
    (by intro p hm w; rw [List.mem_singleton] at hm; subst hm; rfl)
  exact ⟨h.1, h.2 (by decide)⟩

/-- C9.  The brute precheck changes the verdict: for the pattern `a.b` (the
content copy compiled with `re.DOTALL`, the precheck without) and a record
whose field value is the three characters `a`, newline, `b`, `get_match`
with the installed precheck returns `None` — the probe text renders the
newline as the two characters backslash-`n`, so the precheck finds no
occurrence — while the walk without the precheck signals a match. -/
theorem c9_brute_precheck_changes_verdict :
    getMatch c9cfg true [adotbPrecheck] c9msg = none ∧
    (getMatch c9cfg true [] c9msg).isSome = true := ⟨rfl, rfl⟩

/-! ### Condition gating: cross-product attempts and error handling -/

theorem attemptsRun_all_quiet (expr : String)
    (code : List (String × Option TopicKey) → Except CErr Bool) :
    ∀ (l : List (List (String × Option TopicKey))),
      (∀ r ∈ l, code r = .error CErr.noMsg ∨ code r = .ok false) →
      attemptsRun expr code l false = .ok false := by
  intro l
  induction l with
  | nil => intro _; rfl
  | cons r rest ih =>
    intro h
    rw [attemptsRun]
    rcases h r (by simp) with hr | hr
    · rw [hr]
      exact ih fun q hq => h q (List.mem_cons_of_mem _ hq)
    · rw [hr]
      simp only [Bool.false_eq_true, if_false]
      exact ih fun q hq => h q (List.mem_cons_of_mem _ hq)

theorem attemptsRun_finds_true (expr : String)
    (code : List (String × Option TopicKey) → Except CErr Bool) :
    ∀ (l : List (List (String × Option TopicKey))),
      (∀ r ∈ l, code r ≠ .error CErr.err) →
      (∃ r ∈ l, code r = .ok true) →
      ∀ (b : Bool), attemptsRun expr code l b = .ok true := by
  intro l
  induction l with
  | nil =>
    intro _ hex b
    rcases hex with ⟨r, hr, _⟩
    cases hr
  | cons r0 rest ih =>
    intro hsafe hex b
    rw [attemptsRun]
    cases hc : code r0 with
    | ok v =>
      cases v with
      | true => simp
      | false =>
        simp only [Bool.false_eq_true, if_false]
        rcases hex with ⟨r, hr, hR⟩
        rcases List.mem_cons.mp hr with rfl | hr
        · rw [hc] at hR
          cases hR
        · exact ih (fun q hq => hsafe q (List.mem_cons_of_mem _ hq)) ⟨r, hr, hR⟩ false
    | error e =>
      cases e with
      | noMsg =>
        rcases hex with ⟨r, hr, hR⟩
        rcases List.mem_cons.mp hr with rfl | hr
        · rw [hc] at hR
          cases hR
        · exact ih (fun q hq => hsafe q (List.mem_cons_of_mem _ hq)) ⟨r, hr, hR⟩ b
      | err => exact absurd hc (hsafe r0 (by simp))

theorem attemptsRun_hard_error (expr : String)
    (code : List (String × Option TopicKey) → Except CErr Bool) :
    ∀ (pre : List (List (String × Option TopicKey)))
      (r : List (String × Option TopicKey))
      (post : List (List (String × Option TopicKey))),
      (∀ q ∈ pre, code q = .error CErr.noMsg ∨ code q = .ok false) →
      code r = .error CErr.err →
      attemptsRun expr code (pre ++ r :: post) false = .error expr := by
  intro pre
  induction pre with
  | nil =>
    intro r post _ hr
    rw [List.nil_append, attemptsRun, hr]
  | cons q pre ih =>
    intro r post hpre hr
    rw [List.cons_append, attemptsRun]
    rcases hpre q (by simp) with hq | hq
    · rw [hq]
      exact ih r post (fun p hp => hpre p (List.mem_cons_of_mem _ hp)) hr
    · rw [hq]
      simp only [Bool.false_eq_true, if_false]
      exact ih r post (fun p hp => hpre p (List.mem_cons_of_mem _ hp)) hr

theorem condGateLoop_eq_condProcessable (st : CondState) (conds : List CCond) :
    condGateLoop st conds = condProcessable st conds := by
  cases conds <;> rfl

/-- C6.  For condition expressions with wildcarded channel tokens, the gate
tries the cross-product of concrete channel assignments and returns true as
soon as, for every condition, some assignment evaluates true — attempts that
signal "no data yet" (or evaluate false) are passed over, provided no
attempt raises a hard error. -/
theorem c6_wildcard_cross_product (st : CondState) (conds : List CCond)
    (hsafe : ∀ c ∈ conds, ∀ r ∈ attemptsOf st c, c.code r ≠ .error CErr.err)
    (hex : ∀ c ∈ conds, ∃ r ∈ attemptsOf st c, c.code r = .ok true) :
    condProcessable st conds = .ok true := by
  induction conds with
  | nil => rfl
  | cons c rest ih =>
    have hrun := attemptsRun_finds_true c.expr c.code (attemptsOf st c)
      (hsafe c (by simp)) (hex c (by simp)) false
    rw [show condProcessable st (c :: rest) = condGateLoop st (c :: rest) from rfl,
      condGateLoop, hrun]
    simp only [if_true]
    rw [condGateLoop_eq_condProcessable]
    exact ih (fun c2 hc2 => hsafe c2 (List.mem_cons_of_mem _ hc2))
      (fun c2 hc2 => hex c2 (List.mem_cons_of_mem _ hc2))

/-- Witness for C6: the condition
`<topic */ctrl>.enabled and <topic */speed>.value > 0` over a state where
`b/ctrl` (listed first) has no data yet and `a/ctrl` has `enabled` truthy:
the first assignment signals "no data yet", the second evaluates true, and
the gate returns true without an error. -/
theorem c6_wildcard_cross_product_witness :
    c6cond.code [("*/ctrl", some c6B), ("*/speed", some c6S)] = .error CErr.noMsg ∧
    condProcessable c6st [c6cond] = .ok true := by
  have hatt : attemptsOf c6st c6cond
      = [[("*/ctrl", some c6B), ("*/speed", some c6S)],
         [("*/ctrl", some c6A), ("*/speed", some c6S)]] := rfl
  refine ⟨rfl, ?_⟩
  refine c6_wildcard_cross_product c6st [c6cond] ?_ ?_
  · intro c hc r hr
    rw [List.mem_singleton] at hc
    subst hc
    rw [hatt] at hr
    simp only [List.mem_cons, List.mem_singleton] at hr
    rcases hr with rfl | rfl | h
    · rw [show c6cond.code [("*/ctrl", some c6B), ("*/speed", some c6S)]
          = .error CErr.noMsg from rfl]
      simp
    · rw [show c6cond.code [("*/ctrl", some c6A), ("*/speed", some c6S)]
          = .ok true from rfl]
      simp
    · cases h
  · intro c hc
    rw [List.mem_singleton] at hc
    subst hc
    refine ⟨[("*/ctrl", some c6A), ("*/speed", some c6S)], ?_, rfl⟩
    rw [hatt]
    simp

/-- C7.  A `NoMessageException` during an evaluation attempt is caught
silently: when every attempt of the first condition signals "no data yet" or
evaluates false, the gate returns false with nothing logged and nothing
raised (`.ok false`); any other exception is logged once with the
expression text and re-raised, aborting the gate (`.error expr`). -/
theorem c7_nomessage_silent_errors_raised (st : CondState) (c : CCond)
    (rest : List CCond) (pre post : List (List (String × Option TopicKey)))
    (r : List (String × Option TopicKey)) :
    ((∀ q ∈ attemptsOf st c, c.code q = .error CErr.noMsg ∨ c.code q = .ok false) →
      condProcessable st (c :: rest) = .ok false) ∧
    (attemptsOf st c = pre ++ r :: post →
      (∀ q ∈ pre, c.code q = .error CErr.noMsg ∨ c.code q = .ok false) →
      c.code r = .error CErr.err →
      condProcessable st (c :: rest) = .error c.expr) := by
  constructor
  · intro hq
    rw [show condProcessable st (c :: rest) = condGateLoop st (c :: rest) from rfl,
      condGateLoop, attemptsRun_all_quiet c.expr c.code (attemptsOf st c) hq]
    simp
  · intro hsplit hpre hr
    rw [show condProcessable st (c :: rest) = condGateLoop st (c :: rest) from rfl,
      condGateLoop, hsplit, attemptsRun_hard_error c.expr c.code pre r post hpre hr]

/-- Witness for C7: over the C6 state, a condition whose every attempt
signals "no data yet" gates to false without an error; a condition whose
evaluation raises a hard error propagates it with its expression text
logged. -/
theorem c7_nomessage_silent_errors_raised_witness :
    condProcessable c6st [⟨"cond-nodata", ["*/ctrl"], fun _ => .error CErr.noMsg⟩]
      = .ok false ∧
    condProcessable c6st [⟨"cond-bug", [], fun _ => .error CErr.err⟩]
      = .error "cond-bug" := by
  constructor
  · exact (c7_nomessage_silent_errors_raised c6st
      ⟨"cond-nodata", ["*/ctrl"], fun _ => .error CErr.noMsg⟩ [] [] [] []).1
      (fun q _ => Or.inl rfl)
  · exact (c7_nomessage_silent_errors_raised c6st
      ⟨"cond-bug", [], fun _ => .error CErr.err⟩ [] [] [] []).2 rfl
      (fun q hq => absurd hq (List.not_mem_nil q)) rfl

/-! ### Schema hashing: determinism and comment insensitivity -/

theorem linesProc_rel (F : List Char → Option (List Char)) :
    ∀ (pre pre' rest : List (List Char)), List.Forall₂ lineRel pre pre' →
      ((pre ++ rest).takeWhile fun l => !isSepLine l).filterMap
          (fun line => F (stripComment line))
        = ((pre' ++ rest).takeWhile fun l => !isSepLine l).filterMap
          (fun line => F (stripComment line)) := by
  intro pre pre' rest h
  induction h with
  | nil => rfl
  | cons hpq hrest ih =>
    obtain ⟨hstrip, hsp, hsq, _, _⟩ := hpq
    simp only [List.cons_append, List.takeWhile_cons, hsp, hsq, Bool.not_false, if_true,
      List.filterMap_cons]
    rw [hstrip]
    cases F (stripComment _) <;> simp [ih]

theorem forall₂_lineRel_left {pre pre' : List (List Char)}
    (h : List.Forall₂ lineRel pre pre') :
    ∀ l ∈ pre, isSepLine l = false ∧ msgHeadOf l = none := by
  induction h with
  | nil => intro l hl; cases hl
  | cons hpq hrest ih =>
    intro l hl
    rcases List.mem_cons.mp hl with rfl | hl
    · exact ⟨hpq.2.1, hpq.2.2.2.1⟩
    · exact ih l hl

theorem forall₂_lineRel_right {pre pre' : List (List Char)}
    (h : List.Forall₂ lineRel pre pre') :
    ∀ l ∈ pre', isSepLine l = false ∧ msgHeadOf l = none := by
  induction h with
  | nil => intro l hl; cases hl
  | cons hpq hrest ih =>
    intro l hl
    rcases List.mem_cons.mp hl with rfl | hl
    · exact ⟨hpq.2.2.1, hpq.2.2.2.2⟩
    · exact ih l hl

theorem foldl_parseStep_skip :
    ∀ (pre : List (List Char)) (res : List (List Char × List (List Char)))
      (cls : List (List Char)),
      (∀ l ∈ pre, isSepLine l = false ∧ msgHeadOf l = none) →
      pre.foldl parseStep ([], cls, res) = ([], cls, res) := by
  intro pre
  induction pre with
  | nil => intro res cls _; rfl
  | cons p rest ih =>
    intro res cls h
    rw [List.foldl_cons]
    have hp := h p (by simp)
    rw [show parseStep ([], cls, res) p = ([], cls, res) by
      simp [parseStep, hp.1, hp.2]]
    exact ih res cls fun l hl => h l (List.mem_cons_of_mem _ hl)

theorem parseSub1_append_skip (pre rest : List (List Char))
    (h : ∀ l ∈ pre, isSepLine l = false ∧ msgHeadOf l = none) :
    parseSub1 (pre ++ rest) = parseSub1 rest := by
  simp only [parseSub1, List.foldl_append, foldl_parseStep_skip pre [] [] h]

theorem parseSubs_append_skip (pre rest : List (List Char))
    (h : ∀ l ∈ pre, isSepLine l = false ∧ msgHeadOf l = none) :
    parseSubs (pre ++ rest) = parseSubs rest := by
  simp only [parseSubs, parseSub1_append_skip pre rest h]

/-- C5 (amended).  `calculate_definition_hash` is deterministic (the model
is a pure function of its inputs, matching `@memoize`), and two definition
texts whose root-definition lines (before the shared remainder) are equal
after comment stripping — with no comment introduced on a subtype-separator
or `MSG:` header line — yield the same digest for every digest function,
recursion depth, type name and extra definitions. -/
theorem c5_definition_hash_amended (digest : List Char → List Char) (fuel : Nat)
    (tn : List Char) (extra : List (List Char × List (List Char)))
    (pre pre' rest : List (List Char)) (h : List.Forall₂ lineRel pre pre') :
    calcHash fuel digest tn (pre ++ rest) extra
      = calcHash fuel digest tn (pre ++ rest) extra ∧
    calcHash fuel digest tn (pre ++ rest) extra
      = calcHash fuel digest tn (pre' ++ rest) extra := by
  refine ⟨rfl, ?_⟩
  cases fuel with
  | zero => rfl
  | succ fuel =>
    have hparse : parseSubs (pre ++ rest) = parseSubs (pre' ++ rest) := by
      rw [parseSubs_append_skip pre rest (forall₂_lineRel_left h),
        parseSubs_append_skip pre' rest (forall₂_lineRel_right h)]
    have h1 : constLines (pre ++ rest) = constLines (pre' ++ rest) :=
      linesProc_rel constProc pre pre' rest h
    have h2 : ∀ (R : List Char → List Char) (pkg : List Char),
        fieldLines (pre ++ rest) R pkg = fieldLines (pre' ++ rest) R pkg :=
      fun R pkg => linesProc_rel (fieldProc R pkg) pre pre' rest h
    simp only [calcHash]
    rw [hparse, h1, h2]

/-- Counterexample to C5: appending a comment to the all-`=` subtype
separator line — every line still equal under the code's own comment
stripping — changes the hashed text, because the separator test
`set(line) == set("=")` runs before comment stripping: the no-longer-break
line lets the subtype's field join the root field list.  With an injective
stand-in for the external md5, the digests differ. -/
theorem c5_separator_comment_counterexample :
    List.Forall₂ (fun l l2 => stripComment l = stripComment l2) c5t1 c5t2 ∧
    calcHash 2 (fun s => s) "p/M".data c5t1 [] = "int8 a".data ∧
    calcHash 2 (fun s => s) "p/M".data c5t2 [] = "int8 a\nint8 b".data ∧
    ¬ calcHash 2 (fun s => s) "p/M".data c5t1 []
        = calcHash 2 (fun s => s) "p/M".data c5t2 [] := by
  refine ⟨?_, rfl, rfl, by decide⟩
  exact .cons (by decide) (.cons (by decide) (.cons (by decide) (.cons (by decide) .nil)))

/-- Witness for C5: a comment on a root field line leaves the digest
unchanged. -/
theorem c5_definition_hash_amended_witness :
    List.Forall₂ lineRel ["int8 a".data] ["int8 a#note".data] ∧
    calcHash 2 (fun s => s) "p/M".data ("int8 a".data :: c5rest) []
      = calcHash 2 (fun s => s) "p/M".data ("int8 a#note".data :: c5rest) [] := by
  have hrel : List.Forall₂ lineRel ["int8 a".data] ["int8 a#note".data] :=
    .cons ⟨by decide, by decide, by decide, by decide, by decide⟩ .nil
  exact ⟨hrel,
    (c5_definition_hash_amended (fun s => s) 2 "p/M".data [] ["int8 a".data]
      ["int8 a#note".data] c5rest hrel).2⟩
